import Mathlib

/-!
# resourced agent: execution engine, access control, data assembly, log shipper,
query parser

A shallow embedding of `agent/agent.go`, `agent/agent_access_token.go`,
`agent/agent_log.go` and `queryparser/queryparser.go`.

Conventions of the embedding

* A Go `error` is `Option String`: `none` is `nil`, `some m` is an error whose
  `Error()` text is `m`.
* A Go `[]byte` that may be `nil` is `Option Bytes`; `none` is the `nil` slice.
* A Go `map[string]T` is an association list read through `GoMap.get` and
  written through `GoMap.set`; only look-ups matter to the code embedded here.
  A map that may be the `nil` map is an `Option` of such a list, read through
  `GoMap.read` and written through `GoMap.assign`, which panics on `nil`.
* A Go `interface{}` holding JSON-like data is a `Json` value, `Json.null`
  being the `nil` interface.
* Code outside the repository (the JSON library, the HTTP client, the host
  lookup, the clock) and the plugin registry are fields of `World`, and the
  libraries of the query parser are fields of `QueryLib`: every theorem holds
  for every behaviour of these collaborators.
* A Go panic is the `none` of an outer `Option`.
* The result cache has no clock in the embedding: a read follows a write with
  no time passing, so no entry expires in between.
-/

namespace Resourced

/-! ## Go values -/

/-- Text held in a Go byte slice. -/
abbrev Bytes := String

/-- Go error values: `none` is `nil`. -/
abbrev GoError := Option String

/-- What `encoding/json` decodes into an `interface{}`, and what the code puts
into a `map[string]interface{}`. A number is `mantissa * 10 ^ exp10`. -/
inductive Json where
  | null : Json
  | bool (b : Bool) : Json
  | num (mantissa : Int) (exp10 : Int) : Json
  | str (s : String) : Json
  | arr (xs : List Json) : Json
  | obj (kvs : List (String × Json)) : Json

instance : Inhabited Json := ⟨Json.null⟩

/-- Look-up in a Go map: the value stored under `k`, if any. -/
def GoMap.get {α : Type} (m : List (String × α)) (k : String) : Option α :=
  match m with
  | [] => none
  | (k', v) :: rest => if k' = k then some v else GoMap.get rest k

/-- Assignment `m[k] = v` in a Go map: replaces the entry under `k` or adds one. -/
def GoMap.set {α : Type} (m : List (String × α)) (k : String) (v : α) : List (String × α) :=
  match m with
  | [] => [(k, v)]
  | (k', v') :: rest => if k' = k then (k, v) :: rest else (k', v') :: GoMap.set rest k v

/-- Look-up in a Go map that may be `nil` (`none`): reading the `nil` map finds
nothing. -/
def GoMap.read {α : Type} (m : Option (List (String × α))) (k : String) : Option α :=
  match m with
  | none => none
  | some entries => GoMap.get entries k

/-- Assignment `m[k] = v` in a Go map that may be `nil`: the map after it; the
outer `none` is the panic "assignment to entry in nil map". -/
def GoMap.assign {α : Type} (m : Option (List (String × α))) (k : String) (v : α) :
    Option (Option (List (String × α))) :=
  match m with
  | none => none
  | some entries => some (some (GoMap.set entries k v))

/-- Go `strings.HasPrefix`. -/
def HasPrefix (s p : String) : Bool := p.data.isPrefixOf s.data

/-- Go `strings.HasSuffix`. -/
def HasSuffix (s p : String) : Bool := p.data.isSuffixOf s.data

/-! ## Configuration (package `config`, consumed by the agent) -/

/-- One task configuration, `resourced_config.Config`, with the fields the agent
reads. `GoStructFields` is a `map[string]interface{}`; `none` is the `nil` map, the
zero value of the field. -/
structure Config where
  GoStruct : String
  Kind : String
  Path : String
  Interval : String
  ReaderPaths : List String
  GoStructFields : Option (List (String × Json))
  ResourcedMasterURL : String
  ResourcedMasterAccessToken : String

/-- The task lists, `resourced_config.Configs`. -/
structure Configs where
  Readers : List Config
  Writers : List Config
  Executors : List Config
  Loggers : List Config

/-- The `ResourcedMaster` section of the general configuration. -/
structure ResourcedMasterConfig where
  URL : String
  AccessToken : String

/-- The `LogReceiver` section of the general configuration. -/
structure LogReceiverConfig where
  WriteToMasterInterval : String
  AutoPruneLength : Int

/-- The general configuration, `resourced_config.GeneralConfig`. -/
structure GeneralConfig where
  TTL : Int
  ResourcedMaster : ResourcedMasterConfig
  LogReceiver : LogReceiverConfig

/-- Modelled from the spec: `Config.PathWithKindPrefix` of package `config`
(absent from the sources at hand). "If the path already starts with `/<tag>` it
is unchanged; otherwise `/<tag>` is prepended. An unrecognized tag falls back to
the shipper prefix `/w`. This rule is idempotent". The tags recognised are `r`
and `w`, as the spec's `canon("x","/stuff") = "/w/stuff"` says. For another tag
the rule falls back to the one of the shipper prefix: a path that starts with
`/w` is unchanged, otherwise `/w` is prepended. -/
def PathWithKindPrefix (kind input : String) : String :=
  if HasPrefix input ("/" ++ kind) then input
  else if kind = "r" then "/r" ++ input
  else if HasPrefix input "/w" then input
  else "/w" ++ input

/-! ## Host data (package `host`) -/

/-- Modelled from the spec: the host record `{Name, Tags}` of package `host`. -/
structure Host where
  Name : String
  Tags : List (String × String)

/-- The JSON value a host record marshals to. -/
def Host.toJson (h : Host) : Json :=
  Json.obj [("Name", Json.str h.Name),
            ("Tags", Json.obj (h.Tags.map (fun kv => (kv.1, Json.str kv.2))))]

/-! ## Plugins: readers, writers, executors -/

/-- What the agent injects into a task before running it
(`SetConfigs`, `SetReadersDataInBytes`, `SetCounterDB`, `SetTags`,
`SetResourcedMasterURL`, `SetResourcedMasterAccessToken`, `SetHostData`). -/
structure TaskData where
  Configs : Option Configs
  ReadersData : List (String × Option Bytes)
  CounterDB : List (String × Int)
  Tags : List (String × String)
  ResourcedMasterURL : Option String
  ResourcedMasterAccessToken : Option String
  HostData : Option Host

/-- The data of a freshly constructed task: nothing injected yet. -/
def TaskData.empty : TaskData :=
  { Configs := none, ReadersData := [], CounterDB := [], Tags := [],
    ResourcedMasterURL := none, ResourcedMasterAccessToken := none, HostData := none }

/-- A task instance (`IReader`, `IWriter`, `IExecutor`; the last two also
implement `IReader`). Its methods are arbitrary functions of the injected data. -/
structure ITask where
  data : TaskData
  GenerateData : TaskData → GoError
  Run : TaskData → GoError
  ToJson : TaskData → Option Bytes × GoError

/-- An HTTP request as built by `http.NewRequest` followed by `SetBasicAuth`. -/
structure Request where
  Method : String
  URL : String
  Body : Bytes
  BasicAuthUser : String
  BasicAuthPassword : String

/-- The collaborators outside the embedded files. -/
structure World where
  /-- Constructor `readers.NewGoStructByConfig`. -/
  NewReader : Config → Except String ITask
  /-- Constructor `writers.NewGoStructByConfig`. -/
  NewWriter : Config → Except String ITask
  /-- Constructor `executors.NewGoStructByConfig`. -/
  NewExecutor : Config → Except String ITask
  /-- Host lookup `host.NewHostByHostname`. -/
  NewHostByHostname : Except String Host
  /-- Encoder `json.Marshal`. -/
  jsonMarshal : Json → Except String Bytes
  /-- The parser behind `json.Unmarshal`, on a non-empty input. -/
  jsonParse : Bytes → Except String Json
  /-- Method `Config.CommonJsonData` of package `config`. -/
  CommonJsonData : Config → List (String × Json)
  /-- Method `Config.PathWithPrefix` of package `config`: the canonical path of a task. -/
  PathWithPrefix : Config → String
  /-- Clock reading `time.Now().UnixNano()`. -/
  UnixNano : Int
  /-- Request builder `http.NewRequest` with method, URL and body. -/
  httpNewRequest : String → String → Bytes → Except String Request
  /-- Transport `http.Client.Do`: the error it returns, if any. -/
  clientDo : Request → GoError

/-- Go `json.Unmarshal(data, &v)` into an `interface{}`: the library rejects an
empty (or `nil`) input with a syntax error before parsing. -/
def jsonUnmarshal (w : World) (data : Option Bytes) : Except String Json :=
  match data with
  | none => Except.error "unexpected end of JSON input"
  | some b => if b = "" then Except.error "unexpected end of JSON input" else w.jsonParse b

/-! ## The agent -/

/-- The agent, `Agent` of `agent.go`. `ResultDB` is the result cache, `GraphiteDB`
the snapshot `GraphiteDB.All()` returns, `TCPLogDB` the shared log buffers. -/
structure Agent where
  ID : String
  Tags : List (String × String)
  AccessTokens : List String
  Configs : Configs
  GeneralConfig : GeneralConfig
  ResultDB : List (String × Bytes)
  GraphiteDB : Json
  ExecutorCounterDB : List (String × Int)
  TCPLogDB : List (String × List String)

/-- Method `Agent.IsAllowed` of `agent_access_token.go`. -/
def Agent.IsAllowed (a : Agent) (givenToken : String) : Bool :=
  if a.AccessTokens.length = 0 then true
  else a.AccessTokens.any (fun token => decide (token = givenToken))

/-- Method `Agent.hostData`: the host record with the agent's tags. -/
def Agent.hostData (w : World) (a : Agent) : Except String Host :=
  match w.NewHostByHostname with
  | Except.error e => Except.error e
  | Except.ok h => Except.ok { h with Tags := a.Tags }

/-- Method `Agent.GetRunByPath`: the cached bytes under `path`, and always a `nil` error. -/
def Agent.GetRunByPath (a : Agent) (path : String) : Option Bytes × GoError :=
  match GoMap.get a.ResultDB path with
  | some value => (some value, none)
  | none => (none, none)

/-- The error payload `map[string]string{"Error": m}`. -/
def errData (m : String) : Json := Json.obj [("Error", Json.str m)]

/-- Method `Agent.saveRun`: returns the agent after the call and the error returned.
The short declaration `host, err := a.hostData()` assigns the parameter `err`, so
past the host lookup `err` is `nil` whatever was passed in. -/
def Agent.saveRun (w : World) (a : Agent) (config : Config) (output : Option Bytes)
    (err : GoError) : Agent × GoError :=
  if config.Path = "" then (a, none)
  else if output = none ∧ err = none then (a, none)
  else
    let record := w.CommonJsonData config
    match a.hostData w with
    | Except.error e => (a, some e)
    | Except.ok host =>
      let err : GoError := none
      let record := GoMap.set record "Host" host.toJson
      match err with
      | none =>
        match jsonUnmarshal w output with
        | Except.error e => (a, some e)
        | Except.ok runData =>
          let record := GoMap.set record "Data" runData
          match w.jsonMarshal (Json.obj record) with
          | Except.error e => (a, some e)
          | Except.ok recordInJson =>
            ({ a with ResultDB := GoMap.set a.ResultDB (w.PathWithPrefix config) recordInJson },
              none)
      | some m =>
        let record := GoMap.set record "Data" (errData m)
        match w.jsonMarshal (Json.obj record) with
        | Except.error e => (a, some e)
        | Except.ok recordInJson =>
          ({ a with ResultDB := GoMap.set a.ResultDB (w.PathWithPrefix config) recordInJson },
            none)

/-- Method `Agent.initGoStructReader`. -/
def Agent.initGoStructReader (w : World) (_a : Agent) (config : Config) : Except String ITask :=
  w.NewReader config

/-- Method `Agent.commonGraphiteData`: the record without its `Data` field; the
host is left out when the lookup fails. -/
def Agent.commonGraphiteData (w : World) (a : Agent) : List (String × Json) :=
  let record : List (String × Json) := []
  let record := GoMap.set record "UnixNano" (Json.num w.UnixNano 0)
  let record := GoMap.set record "Path" (Json.str "/graphite")
  match a.hostData w with
  | Except.ok host => GoMap.set record "Host" host.toJson
  | Except.error _ => record

/-- One turn of the loop over `config.ReaderPaths` in `initGoStructWriter`. -/
def Agent.addReaderData (w : World) (a : Agent)
    (readersData : List (String × Option Bytes)) (readerPath : String) :
    List (String × Option Bytes) :=
  if HasSuffix readerPath "/graphite" then
    let record := a.commonGraphiteData w
    let record := GoMap.set record "Data" a.GraphiteDB
    match w.jsonMarshal (Json.obj record) with
    | Except.ok readerJsonBytes => GoMap.set readersData readerPath (some readerJsonBytes)
    | Except.error _ => readersData
  else
    match a.GetRunByPath (PathWithKindPrefix "r" readerPath) with
    | (readerJsonBytes, none) => GoMap.set readersData readerPath readerJsonBytes
    | (_, some _) => readersData

/-- The readers data `initGoStructWriter` assembles: the loop over
`config.ReaderPaths`, started from the empty map. -/
def Agent.readersData (w : World) (a : Agent) (config : Config) : List (String × Option Bytes) :=
  config.ReaderPaths.foldl (a.addReaderData w) []

/-- Method `Agent.initGoStructWriter`: the writer with the configs and the readers
data set, or the constructor's error. -/
def Agent.initGoStructWriter (w : World) (a : Agent) (config : Config) : Except String ITask :=
  match w.NewWriter config with
  | Except.error e => Except.error e
  | Except.ok writer =>
    let writer := { writer with data := { writer.data with Configs := some a.Configs } }
    let readersData := a.readersData w config
    Except.ok { writer with data := { writer.data with ReadersData := readersData } }

/-- The `Url` step of `initResourcedMasterWriter`: the field map after the endpoint
resolution. The outer `none` is a panic: the type assertion
`urlFromConfigInterface.(string)` on a `Url` that is neither `nil` nor a string,
or the assignment of the default into a `nil` field map. -/
def Agent.resolveUrl (a : Agent) (config : Config) :
    Option (Option (List (String × Json))) :=
  let apiPath := if config.GoStruct = "ResourcedMasterHost" then "/api/hosts" else ""
  match GoMap.read config.GoStructFields "Url" with
  | none =>
    GoMap.assign config.GoStructFields "Url"
      (Json.str (a.GeneralConfig.ResourcedMaster.URL ++ apiPath))
  | some Json.null =>
    GoMap.assign config.GoStructFields "Url"
      (Json.str (a.GeneralConfig.ResourcedMaster.URL ++ apiPath))
  | some (Json.str urlFromConfig) =>
    if !HasSuffix urlFromConfig apiPath then
      GoMap.assign config.GoStructFields "Url"
        (Json.str (a.GeneralConfig.ResourcedMaster.URL ++ apiPath))
    else some config.GoStructFields
  | some _ => none

/-- The `Username` step of `initResourcedMasterWriter`: the field map after the
credential resolution; the outer `none` is the panic of an assignment into a
`nil` field map. -/
def Agent.resolveUsername (a : Agent) (fields : Option (List (String × Json))) :
    Option (Option (List (String × Json))) :=
  match GoMap.read fields "Username" with
  | none =>
    GoMap.assign fields "Username" (Json.str a.GeneralConfig.ResourcedMaster.AccessToken)
  | some Json.null =>
    GoMap.assign fields "Username" (Json.str a.GeneralConfig.ResourcedMaster.AccessToken)
  | some _ => some fields

/-- Method `Agent.initResourcedMasterWriter`: the `Url` step, the `Username`
step, then `initGoStructWriter`. The field map of the config is shared with the
caller, so the config with the fields as left by the call is returned next to
the writer. `none` is the panic of one of the two steps. -/
def Agent.initResourcedMasterWriter (w : World) (a : Agent) (config : Config) :
    Option (Config × Except String ITask) :=
  match a.resolveUrl config with
  | none => none
  | some fields =>
    match a.resolveUsername fields with
    | none => none
    | some fields =>
      let config := { config with GoStructFields := fields }
      some (config, a.initGoStructWriter w config)

/-- Method `Agent.initGoStructExecutor`. -/
def Agent.initGoStructExecutor (w : World) (a : Agent) (config : Config) : Except String ITask :=
  match w.NewExecutor config with
  | Except.error e => Except.error e
  | Except.ok executor =>
    let goodItemsInBytes : List (String × Option Bytes) :=
      a.ResultDB.map (fun item => (item.1, some item.2))
    let data := { executor.data with
      ReadersData := goodItemsInBytes, CounterDB := a.ExecutorCounterDB, Tags := a.Tags }
    let data :=
      if config.ResourcedMasterURL = "" then
        { data with ResourcedMasterURL := some a.GeneralConfig.ResourcedMaster.URL }
      else data
    let data :=
      if config.ResourcedMasterAccessToken = "" then
        { data with ResourcedMasterAccessToken := some a.GeneralConfig.ResourcedMaster.AccessToken }
      else data
    match a.hostData w with
    | Except.error e => Except.error e
    | Except.ok host => Except.ok { executor with data := { data with HostData := some host } }

/-- Method `Agent.runGoStruct`: the output and the error of one run of a task. -/
def Agent.runGoStruct (w : World) (_a : Agent) (task : ITask) : Option Bytes × GoError :=
  match task.Run task.data with
  | some m =>
    match w.jsonMarshal (errData m) with
    | Except.ok b => (some b, none)
    | Except.error e => (none, some e)
  | none => task.ToJson task.data

/-- Method `Agent.runGoStructReader`. -/
def Agent.runGoStructReader (w : World) (a : Agent) (config : Config) : Option Bytes × GoError :=
  match a.initGoStructReader w config with
  | Except.error e => (none, some e)
  | Except.ok reader => a.runGoStruct w reader

/-- The writer `runGoStructWriter` initialises, with the config as the
initialisation leaves it; `none` is a panic. -/
def Agent.initWriter (w : World) (a : Agent) (config : Config) :
    Option (Config × Except String ITask) :=
  if HasPrefix config.GoStruct "ResourcedMaster" then a.initResourcedMasterWriter w config
  else some (config, a.initGoStructWriter w config)

/-- Method `Agent.runGoStructWriter`, with the config as the call leaves it. -/
def Agent.runGoStructWriter (w : World) (a : Agent) (config : Config) :
    Option (Config × Option Bytes × GoError) :=
  match a.initWriter w config with
  | none => none
  | some (config, Except.error e) => some (config, none, some e)
  | some (config, Except.ok writer) =>
    match writer.GenerateData writer.data with
    | some e => some (config, none, some e)
    | none => some (config, a.runGoStruct w writer)

/-- Method `Agent.runGoStructExecutor`. -/
def Agent.runGoStructExecutor (w : World) (a : Agent) (config : Config) : Option Bytes × GoError :=
  match a.initGoStructExecutor w config with
  | Except.error e => (none, some e)
  | Except.ok executor => a.runGoStruct w executor

/-- What `Agent.Run` leaves behind: the agent, the config (its field map is
shared with the callee), and the two values returned. -/
structure RunResult where
  agent : Agent
  config : Config
  output : Option Bytes
  err : GoError

/-- The first half of `Agent.Run`: the dispatch on `config.Kind`, before
`saveRun`. `none` is a panic. -/
def Agent.runKind (w : World) (a : Agent) (config : Config) :
    Option (Config × Option Bytes × GoError) :=
  if config.GoStruct ≠ "" ∧ config.Kind = "reader" then
    some (config, a.runGoStructReader w config)
  else if config.GoStruct ≠ "" ∧ config.Kind = "writer" then
    a.runGoStructWriter w config
  else if config.GoStruct ≠ "" ∧ config.Kind = "executor" then
    some (config, a.runGoStructExecutor w config)
  else some (config, none, none)

/-- Method `Agent.Run`: the dispatch, then `saveRun`, whose error is the one returned. -/
def Agent.Run (w : World) (a : Agent) (config : Config) : Option RunResult :=
  match a.runKind w config with
  | none => none
  | some (config, output, err) =>
    let saved := a.saveRun w config output err
    some { agent := saved.1, config := config, output := output, err := saved.2 }

/-! ## Log shipping (`agent_log.go`) -/

/-- Modelled from the spec: `TSafeMapStrings.Get` of package `libmap`, the lines
buffered under a name (none when the name is unknown). -/
def TSafeMapStrings.Get (db : List (String × List String)) (key : String) : List String :=
  (GoMap.get db key).getD []

/-- Modelled from the spec: `TSafeMapStrings.Reset` of package `libmap`, which
clears the buffer under a name. -/
def TSafeMapStrings.Reset (db : List (String × List String)) (key : String) :
    List (String × List String) :=
  GoMap.set db key []

/-- Method `Agent.SendLog`: the log buffers after the call, the bytes and the
error returned. -/
def Agent.SendLog (w : World) (a : Agent) (logdb : List (String × List String))
    (filename : String) : List (String × List String) × Option Bytes × GoError :=
  let loglines := TSafeMapStrings.Get logdb "Loglines"
  if loglines.length ≤ 0 then (logdb, none, none)
  else
    let toSend : List (String × Json) := []
    let toSend := GoMap.set toSend "Loglines" (Json.arr (loglines.map Json.str))
    let toSend := GoMap.set toSend "Filename" (Json.str filename)
    match a.hostData w with
    | Except.error e => (logdb, none, some e)
    | Except.ok host =>
      let toSend := GoMap.set toSend "Host" host.toJson
      match w.jsonMarshal (Json.obj toSend) with
      | Except.error e => (logdb, none, some e)
      | Except.ok dataJson =>
        let url := a.GeneralConfig.ResourcedMaster.URL ++ "/api/logs"
        match w.httpNewRequest "POST" url dataJson with
        | Except.error e => (logdb, none, some e)
        | Except.ok req =>
          let req := { req with
            BasicAuthUser := a.GeneralConfig.ResourcedMaster.AccessToken,
            BasicAuthPassword := "" }
          match w.clientDo req with
          | some e => (logdb, none, some e)
          | none =>
            let logdb := TSafeMapStrings.Reset logdb "Loglines"
            match w.jsonMarshal (Json.obj toSend) with
            | Except.ok b => (logdb, some b, none)
            | Except.error e => (logdb, none, some e)

/-- Whether constructing the task of `config` fails: `Run` takes one of its three
branches and the `init` function of that branch returns an error. -/
def Agent.constructionFails (w : World) (a : Agent) (config : Config) : Bool :=
  if config.GoStruct = "" then false
  else if config.Kind = "reader" then
    match a.initGoStructReader w config with
    | Except.error _ => true
    | Except.ok _ => false
  else if config.Kind = "writer" then
    match a.initWriter w config with
    | some (_, Except.error _) => true
    | _ => false
  else if config.Kind = "executor" then
    match a.initGoStructExecutor w config with
    | Except.error _ => true
    | Except.ok _ => false
  else false

/-- The task `Run` hands to `runGoStruct`, with the config as the initialisation
leaves it: the reader or the executor once initialised, or the writer once
initialised and `GenerateData` has succeeded. -/
def Agent.taskOf (w : World) (a : Agent) (config : Config) : Option (Config × ITask) :=
  if config.GoStruct = "" then none
  else if config.Kind = "reader" then
    match a.initGoStructReader w config with
    | Except.ok reader => some (config, reader)
    | Except.error _ => none
  else if config.Kind = "writer" then
    match a.initWriter w config with
    | some (c, Except.ok writer) =>
      match writer.GenerateData writer.data with
      | none => some (c, writer)
      | some _ => none
    | _ => none
  else if config.Kind = "executor" then
    match a.initGoStructExecutor w config with
    | Except.ok executor => some (config, executor)
    | Except.error _ => none
  else none

/-- The envelope `saveRun` marshals for a run whose parsed output is `data`. -/
def Agent.envelope (w : World) (config : Config) (host : Host) (data : Json) :
    List (String × Json) :=
  GoMap.set (GoMap.set (w.CommonJsonData config) "Host" host.toJson) "Data" data

/-- The body `SendLog` posts: the buffered lines, the file name and the host. -/
def Agent.logPayload (loglines : List String) (filename : String) (host : Host) : Json :=
  Json.obj (GoMap.set (GoMap.set (GoMap.set [] "Loglines" (Json.arr (loglines.map Json.str)))
    "Filename" (Json.str filename)) "Host" host.toJson)

/-- The request `SendLog` sends: the built request with the basic-auth credential. -/
def Agent.logRequest (a : Agent) (req : Request) : Request :=
  { req with
    BasicAuthUser := a.GeneralConfig.ResourcedMaster.AccessToken, BasicAuthPassword := "" }

/-- Method `Agent.PruneLogs`, with the value of `autoPrunner.GetAutoPruneLength()`:
the log buffers after the call and the error returned. -/
def Agent.PruneLogs (_a : Agent) (autoPruneLength : Int)
    (logdb : List (String × List String)) : List (String × List String) × GoError :=
  let loglines := TSafeMapStrings.Get logdb "Loglines"
  if Int.ofNat loglines.length > autoPruneLength then
    (TSafeMapStrings.Reset logdb "Loglines", none)
  else (logdb, none)

/-- One turn of the loop of `SendTCPLogForever`, the sleep left out: the agent
after `SendLog` and `PruneLogs` on the shared buffers. -/
def Agent.sendTCPLogIteration (w : World) (a : Agent) (config : LogReceiverConfig) : Agent :=
  let sent := a.SendLog w a.TCPLogDB ""
  let a := { a with TCPLogDB := sent.1 }
  let pruned := a.PruneLogs config.AutoPruneLength a.TCPLogDB
  { a with TCPLogDB := pruned.1 }

/-- A logger (`loggers.ILogger`) as the agent sees it: the buffers `GetData()`
returns, the file name `GetFile()` returns and its `GetAutoPruneLength()`. -/
structure ILogger where
  Data : List (String × List String)
  File : String
  AutoPruneLength : Int

/-- The JSON value of a Go byte slice: `null` for the `nil` slice, else the
string of its base64 text. -/
def bytesJson (base64 : Bytes → String) (b : Option Bytes) : Json :=
  match b with
  | none => Json.null
  | some bytes => Json.str (base64 bytes)

/-- One turn of the per-logger shipper loop of `RunAllForever`, the sleeps left
out: the agent and the logger after it. Both `continue` statements end the turn
before `saveRun` and `PruneLogs`. -/
def Agent.loggerIteration (w : World) (base64 : Bytes → String) (a : Agent) (config : Config)
    (logger : ILogger) : Agent × ILogger :=
  match a.SendLog w logger.Data logger.File with
  | (data, _, some _) => (a, { logger with Data := data })
  | (data, loglines, none) =>
    let logger := { logger with Data := data }
    match w.jsonMarshal (bytesJson base64 loglines) with
    | Except.error _ => (a, logger)
    | Except.ok outputJson =>
      let saved := a.saveRun w config (some outputJson) none
      let pruned := saved.1.PruneLogs logger.AutoPruneLength logger.Data
      (saved.1, { logger with Data := pruned.1 })

/-! ## The query parser (`queryparser/queryparser.go`)

The second argument of `strings.Count`, `strings.Replace` and `strings.Split` is a
one-character string wherever the parser calls them, so the embedding takes a
character there. -/

/-- Go `unicode.IsSpace`, the white space `strings.Fields` splits around. -/
def isSpace (c : Char) : Bool :=
  let n := c.toNat
  n = 9 || n = 10 || n = 11 || n = 12 || n = 13 || n = 32 || n = 0x85 || n = 0xA0 ||
  n = 0x1680 || (0x2000 ≤ n && n ≤ 0x200A) || n = 0x2028 || n = 0x2029 || n = 0x202F ||
  n = 0x205F || n = 0x3000

/-- The loop of `strings.Fields`: `cur` is the field being read, in reverse. -/
def FieldsAux : List Char → List Char → List String
  | [], cur => if cur.isEmpty then [] else [String.mk cur.reverse]
  | c :: cs, cur =>
    if isSpace c then
      if cur.isEmpty then FieldsAux cs [] else String.mk cur.reverse :: FieldsAux cs []
    else FieldsAux cs (c :: cur)

/-- Go `strings.Fields`: the maximal runs of characters that are not white space. -/
def Fields (s : String) : List String := FieldsAux s.data []

/-- Whether `sub` occurs in a list of characters. -/
def containsChars (sub : List Char) : List Char → Bool
  | [] => sub.isPrefixOf []
  | c :: cs => sub.isPrefixOf (c :: cs) || containsChars sub cs

/-- Go `strings.Contains`. -/
def Contains (s substr : String) : Bool := containsChars substr.data s.data

/-- Go `strings.Count(s, c)` for a one-character `c`. -/
def Count (s : String) (c : Char) : Nat := s.data.count c

/-- Go `strings.Replace(s, c, "", -1)` for a one-character `c`: every `c` removed. -/
def RemoveAll (s : String) (c : Char) : String := String.mk (s.data.filter (fun x => x != c))

/-- The pieces of a list of characters between the occurrences of `sep`. -/
def splitChars (sep : Char) : List Char → List (List Char)
  | [] => [[]]
  | c :: cs =>
    if c = sep then [] :: splitChars sep cs
    else
      match splitChars sep cs with
      | [] => [[c]]
      | piece :: pieces => (c :: piece) :: pieces

/-- Go `strings.Split(s, sep)` for a one-character `sep`. -/
def Split (s : String) (sep : Char) : List String := (splitChars sep s.data).map String.mk

/-- Go `strings.Repeat`. -/
def Repeat (s : String) : Nat → String
  | 0 => ""
  | n + 1 => s ++ Repeat s n

/-- Go `strings.Join`. -/
def Join : List String → String → String
  | [], _ => ""
  | [a], _ => a
  | a :: b :: rest, sep => a ++ sep ++ Join (b :: rest) sep

/-- Go `fmt.Sprintf` with the format of a value between double quotes, for a string. -/
def quoted (value : String) : String := "\"" ++ value ++ "\""

/-- The libraries behind the query parser. -/
structure QueryLib where
  /-- Decoder `json.Unmarshal` into a `map[string]interface{}`, on a non-empty input. -/
  unmarshalMap : Bytes → Except String (List (String × Json))
  /-- Encoder `json.Marshal`. -/
  jsonMarshal : Json → Except String Bytes
  /-- Library call `jsonq.NewQuery(m).Interface(path...)`: the value at a path. -/
  jsonq : List (String × Json) → List String → Except String Json
  /-- Evaluator `otto.New().Run(query)` followed by `ToBoolean()` on its value. -/
  ottoRun : String → Except String (Bool × GoError)

/-- Go `json.Unmarshal(data, &m)` into a map: an empty (or `nil`) input is rejected
before decoding. -/
def jsonUnmarshalMap (lib : QueryLib) (data : Option Bytes) :
    Except String (List (String × Json)) :=
  match data with
  | none => Except.error "unexpected end of JSON input"
  | some b => if b = "" then Except.error "unexpected end of JSON input" else lib.unmarshalMap b

/-- Modelled from the spec: `TSafeMapBytes.Get` of package `libmap`, the cached
bytes under a path, the `nil` slice when there are none. -/
def TSafeMapBytes.Get (db : List (String × Bytes)) (key : String) : Option Bytes :=
  GoMap.get db key

/-- The query parser, `QueryParser`. -/
structure QueryParser where
  hostname : String
  tags : List (String × String)
  data : List (String × Bytes)

/-- One turn of the loop of `replaceHostnameWithValue`: the chunk after it. -/
def QueryParser.replaceHostnameChunk (qp : QueryParser) (chunk : String) : String :=
  if HasSuffix chunk "name" then
    let openParensCount := Count chunk '('
    if openParensCount = 0 then quoted qp.hostname
    else Repeat "(" openParensCount ++ quoted qp.hostname
  else chunk

/-- Method `QueryParser.replaceHostnameWithValue`. -/
def QueryParser.replaceHostnameWithValue (qp : QueryParser) (query : String) : String × GoError :=
  let queryChunks := Fields query
  (Join (queryChunks.map qp.replaceHostnameChunk) " ", none)

/-- One turn of the loop of `replaceTagsWithValue`: the chunk after it; `none` is
the panic of `prefixAndTagChunk[1]` on a split with one element. -/
def QueryParser.replaceTagChunk (qp : QueryParser) (chunk : String) : Option String :=
  if Contains chunk "tags." then
    let openParensCount := Count chunk '('
    let chunk := RemoveAll chunk '('
    let prefixAndTagChunk := Split chunk '.'
    match prefixAndTagChunk[1]? with
    | none => none
    | some tag =>
      let value := (GoMap.get qp.tags tag).getD ""
      if openParensCount = 0 then some (quoted value)
      else some (Repeat "(" openParensCount ++ quoted value)
  else some chunk

/-- A loop that rewrites every chunk in turn, and panics when a turn does. -/
def mapChunks (f : String → Option String) : List String → Option (List String)
  | [] => some []
  | chunk :: rest =>
    match f chunk with
    | none => none
    | some c =>
      match mapChunks f rest with
      | none => none
      | some cs => some (c :: cs)

/-- Method `QueryParser.replaceTagsWithValue`; `none` is a panic. -/
def QueryParser.replaceTagsWithValue (qp : QueryParser) (query : String) :
    Option (String × GoError) :=
  let queryChunks := Fields query
  match mapChunks qp.replaceTagChunk queryChunks with
  | none => none
  | some queryChunks => some (Join queryChunks " ", none)

/-- Method `QueryParser.dataValue`. -/
def QueryParser.dataValue (lib : QueryLib) (qp : QueryParser) (datapath jsonSelector : String) :
    Except String Json :=
  let dataJsonBytes := TSafeMapBytes.Get qp.data datapath
  match jsonUnmarshalMap lib dataJsonBytes with
  | Except.error e => Except.error e
  | Except.ok dataJson =>
    let jsonSelectorChunks := Split jsonSelector '.'
    let jsonSelectorChunks := "Data" :: jsonSelectorChunks
    lib.jsonq dataJson jsonSelectorChunks

/-- One turn of the loop of `replaceDataPathWithValue`: the chunk after it, or the
error the pass returns; `none` is the panic of `dataPathAndJsonSelectorChunks[0]`
on an empty split. -/
def QueryParser.replaceDataPathChunk (lib : QueryLib) (qp : QueryParser) (chunk : String) :
    Option (Except String String) :=
  if Contains chunk "/r/" || Contains chunk "/w/" || Contains chunk "/x/" then
    let openParensCount := Count chunk '('
    let chunk := RemoveAll chunk '('
    let dataPathAndJsonSelectorChunks := Split chunk '.'
    match dataPathAndJsonSelectorChunks[0]? with
    | none => none
    | some dataPath =>
      let jsonSelectorChunks := dataPathAndJsonSelectorChunks.drop 1
      let jsonSelector := Join jsonSelectorChunks "."
      match qp.dataValue lib dataPath jsonSelector with
      | Except.error e => some (Except.error e)
      | Except.ok valueInterface =>
        match lib.jsonMarshal valueInterface with
        | Except.error e => some (Except.error e)
        | Except.ok valueBytes =>
          if openParensCount = 0 then some (Except.ok valueBytes)
          else some (Except.ok (Repeat "(" openParensCount ++ valueBytes))
  else some (Except.ok chunk)

/-- The loop of `replaceDataPathWithValue`: the chunks after it, or the error of
the first turn that fails, at which the loop stops. -/
def QueryParser.replaceDataPathChunks (lib : QueryLib) (qp : QueryParser) :
    List String → Option (Except String (List String))
  | [] => some (Except.ok [])
  | chunk :: rest =>
    match qp.replaceDataPathChunk lib chunk with
    | none => none
    | some (Except.error e) => some (Except.error e)
    | some (Except.ok c) =>
      match QueryParser.replaceDataPathChunks lib qp rest with
      | none => none
      | some (Except.error e) => some (Except.error e)
      | some (Except.ok cs) => some (Except.ok (c :: cs))

/-- Method `QueryParser.replaceDataPathWithValue`; `none` is a panic. -/
def QueryParser.replaceDataPathWithValue (lib : QueryLib) (qp : QueryParser) (query : String) :
    Option (String × GoError) :=
  let queryChunks := Fields query
  match qp.replaceDataPathChunks lib queryChunks with
  | none => none
  | some (Except.error e) => some ("", some e)
  | some (Except.ok queryChunks) => some (Join queryChunks " ", none)

/-- Method `QueryParser.Parse`; `none` is a panic. -/
def QueryParser.Parse (lib : QueryLib) (qp : QueryParser) (query : String) :
    Option (Bool × GoError) :=
  match qp.replaceDataPathWithValue lib query with
  | none => none
  | some (_, some e) => some (false, some e)
  | some (query, none) =>
    match qp.replaceTagsWithValue query with
    | none => none
    | some (_, some e) => some (false, some e)
    | some (query, none) =>
      match qp.replaceHostnameWithValue query with
      | (_, some e) => some (false, some e)
      | (query, none) =>
        match lib.ottoRun query with
        | Except.error e => some (false, some e)
        | Except.ok value => some value

/-! ## Example worlds and agents

Concrete collaborators on which the definitions above are evaluated. The example
encoder writes compact JSON text; the example parser reads back the two texts
used below. -/

/-- A task whose `Run` and `ToJson` return the given values. -/
def Example.task (runErr : GoError) (out : Option Bytes × GoError) : ITask :=
  { data := TaskData.empty, GenerateData := fun _ => none,
    Run := fun _ => runErr, ToJson := fun _ => out }

/-- The decimal text of `mantissa * 10 ^ exp10`, for a mantissa without trailing
zeros. -/
def Example.renderNum (mantissa exp10 : Int) : String :=
  let sign := if mantissa < 0 then "-" else ""
  let digits := Nat.toDigits 10 mantissa.natAbs
  match exp10 with
  | Int.ofNat e => sign ++ String.mk (digits ++ List.replicate e '0')
  | Int.negSucc e =>
    let padded := List.replicate (e + 2 - digits.length) '0' ++ digits
    sign ++ String.mk (padded.take (padded.length - (e + 1))) ++ "." ++
      String.mk (padded.drop (padded.length - (e + 1)))

mutual
/-- The example encoder: compact JSON text, the fields of an object in the order
of the list, strings written without escapes. -/
def Example.render : Json → String
  | Json.null => "null"
  | Json.bool b => if b then "true" else "false"
  | Json.num m e => Example.renderNum m e
  | Json.str s => "\"" ++ s ++ "\""
  | Json.arr xs => "[" ++ Example.renderList xs ++ "]"
  | Json.obj kvs => "\x7b" ++ Example.renderFields kvs ++ "\x7d"
/-- The elements of an array, separated by commas. -/
def Example.renderList : List Json → String
  | [] => ""
  | [x] => Example.render x
  | x :: y :: rest => Example.render x ++ "," ++ Example.renderList (y :: rest)
/-- The fields of an object, separated by commas. -/
def Example.renderFields : List (String × Json) → String
  | [] => ""
  | [(k, v)] => "\"" ++ k ++ "\":" ++ Example.render v
  | (k, v) :: p :: rest =>
    "\"" ++ k ++ "\":" ++ Example.render v ++ "," ++ Example.renderFields (p :: rest)
end

/-- The example `json.Marshal`: it never fails. -/
def Example.jsonMarshal (v : Json) : Except String Bytes := Except.ok (Example.render v)

/-- The envelope bytes of the example reader run. -/
def Example.loadEnvelope : Bytes :=
  "\x7b\"Path\":\"/load\",\"Interval\":\"3s\"," ++
  "\"Host\":\x7b\"Name\":\"h1\",\"Tags\":\x7b\"env\":\"prod\"\x7d\x7d," ++
  "\"Data\":\x7b\"Load\":2.5\x7d\x7d"

/-- The envelope bytes of the example reader run that fails with `boom`. -/
def Example.boomEnvelope : Bytes :=
  "\x7b\"Path\":\"/load\",\"Interval\":\"3s\"," ++
  "\"Host\":\x7b\"Name\":\"h1\",\"Tags\":\x7b\"env\":\"prod\"\x7d\x7d," ++
  "\"Data\":\x7b\"Error\":\"boom\"\x7d\x7d"

/-- The body posted for the example log buffer. -/
def Example.logBody : Bytes :=
  "\x7b\"Loglines\":[\"line one\"],\"Filename\":\"\"," ++
  "\"Host\":\x7b\"Name\":\"h1\",\"Tags\":\x7b\"env\":\"prod\"\x7d\x7d\x7d"

/-- The example parser. -/
def Example.jsonParse (b : Bytes) : Except String Json :=
  if b = "\x7b\"Load\":2.5\x7d" then Except.ok (Json.obj [("Load", Json.num 25 (-1))])
  else if b = "\x7b\"Error\":\"boom\"\x7d" then Except.ok (errData "boom")
  else Except.error "invalid character"

/-- The example canonical path of a task: kind letter `r`, `w` or `x`. -/
def Example.PathWithPrefix (c : Config) : String :=
  if c.Kind = "reader" then PathWithKindPrefix "r" c.Path
  else if c.Kind = "writer" then PathWithKindPrefix "w" c.Path
  else if c.Kind = "executor" then PathWithKindPrefix "x" c.Path
  else c.Path

/-- A world in which every plugin is constructed, runs and serialises to
`{"Load":2.5}`, the host lookup succeeds and the receiver accepts every request. -/
def Example.world : World :=
  { NewReader := fun _ => Except.ok (Example.task none (some "\x7b\"Load\":2.5\x7d", none)),
    NewWriter := fun _ => Except.ok (Example.task none (some "\x7b\"Load\":2.5\x7d", none)),
    NewExecutor := fun _ => Except.ok (Example.task none (some "\x7b\"Load\":2.5\x7d", none)),
    NewHostByHostname := Except.ok { Name := "h1", Tags := [] },
    jsonMarshal := Example.jsonMarshal,
    jsonParse := Example.jsonParse,
    CommonJsonData := fun c => [("Path", Json.str c.Path), ("Interval", Json.str c.Interval)],
    PathWithPrefix := Example.PathWithPrefix,
    UnixNano := 0,
    httpNewRequest := fun method url body =>
      Except.ok { Method := method, URL := url, Body := body,
                  BasicAuthUser := "", BasicAuthPassword := "" },
    clientDo := fun _ => none }

/-- The example world with a plugin registry that knows no implementation. -/
def Example.worldNoPlugin : World :=
  { Example.world with
    NewReader := fun _ => Except.error "GoStruct is undefined",
    NewWriter := fun _ => Except.error "GoStruct is undefined",
    NewExecutor := fun _ => Except.error "GoStruct is undefined" }

/-- The example world with plugins whose `Run` fails with the message `boom`. -/
def Example.worldRunFails : World :=
  { Example.world with
    NewReader := fun _ => Except.ok (Example.task (some "boom") (none, none)),
    NewWriter := fun _ => Except.ok (Example.task (some "boom") (none, none)),
    NewExecutor := fun _ => Except.ok (Example.task (some "boom") (none, none)) }

/-- The world of `Example.worldRunFails` with a failing host lookup. -/
def Example.worldRunFailsNoHost : World :=
  { Example.worldRunFails with NewHostByHostname := Except.error "lookup failed" }

/-- The example world with a receiver that refuses the connection. -/
def Example.worldSendFails : World :=
  { Example.world with clientDo := fun _ => some "connection refused" }

/-- An agent with the given access tokens, an empty cache and one buffered log line. -/
def Example.agent (tokens : List String) : Agent :=
  { ID := "agent-1", Tags := [("env", "prod")], AccessTokens := tokens,
    Configs := { Readers := [], Writers := [], Executors := [], Loggers := [] },
    GeneralConfig :=
      { TTL := 300,
        ResourcedMaster := { URL := "http://master:55655", AccessToken := "abc123" },
        LogReceiver := { WriteToMasterInterval := "60s", AutoPruneLength := 10000 } },
    ResultDB := [], GraphiteDB := Json.obj [], ExecutorCounterDB := [],
    TCPLogDB := [("Loglines", ["line one"])] }

/-- A config of the given kind and path for the implementation `LoadAvg`. -/
def Example.config (kind path : String) : Config :=
  { GoStruct := "LoadAvg", Kind := kind, Path := path, Interval := "3s",
    ReaderPaths := [], GoStructFields := some [], ResourcedMasterURL := "",
    ResourcedMasterAccessToken := "" }

/-- A writer config for the implementation `Http` that reads the given paths. -/
def Example.writerConfig (readerPaths : List String) : Config :=
  { Example.config "writer" "/http" with GoStruct := "Http", ReaderPaths := readerPaths }

/-- A writer config for `ResourcedMasterHost` with the given fields. -/
def Example.masterConfig (fields : List (String × Json)) : Config :=
  { Example.config "writer" "/master" with
    GoStruct := "ResourcedMasterHost", GoStructFields := some fields }

/-- A writer config for `ResourcedMasterHost` whose field map is the `nil` map. -/
def Example.masterConfigNil : Config :=
  { Example.config "writer" "/master" with
    GoStruct := "ResourcedMasterHost", GoStructFields := none }

/-- A logger that has buffered three lines and prunes above two. -/
def Example.logger : ILogger :=
  { Data := [("Loglines", ["line one", "line two", "line three"])],
    File := "/var/log/syslog", AutoPruneLength := 2 }

/-- A stand-in for the base64 text of a byte slice. -/
def Example.base64 (b : Bytes) : String := b

/-- The example `jsonq`: the value at a path of object keys; a `null` is no value. -/
def Example.jsonqValue : Json → List String → Except String Json
  | Json.null, [] => Except.error "Nil value found"
  | v, [] => Except.ok v
  | Json.obj kvs, k :: ks =>
    match GoMap.get kvs k with
    | some v => Example.jsonqValue v ks
    | none => Except.error ("Object does not contain field " ++ k)
  | _, _ :: _ => Except.error "Input is not an array or object"

/-- The example query libraries: a decoder that reads the two envelopes used
below, the example encoder, and an evaluator that knows the two expressions of
the example queries. -/
def Example.queryLib : QueryLib :=
  { unmarshalMap := fun b =>
      if b = "\x7b\"Data\":\x7b\"Load\":2.5\x7d\x7d" then
        Except.ok [("Data", Json.obj [("Load", Json.num 25 (-1))])]
      else if b = "\x7b\"Data\":\x7b\"Load(1m)\":2.5\x7d\x7d" then
        Except.ok [("Data", Json.obj [("Load(1m)", Json.num 25 (-1))])]
      else Except.error "invalid character",
    jsonMarshal := Example.jsonMarshal,
    jsonq := fun m path => Example.jsonqValue (Json.obj m) path,
    ottoRun := fun q =>
      if q = "2.5 > 2 && \"prod\" == \"prod\"" then Except.ok (true, none)
      else if q = "\"h1\" == \"h1\"" then Except.ok (true, none)
      else Except.error "SyntaxError" }

/-- The example parser state: host `h1`, the tag `env`, and an envelope cached at
`/r/cpu/load`. -/
def Example.queryParser : QueryParser :=
  { hostname := "h1", tags := [("env", "prod")],
    data := [("/r/cpu/load", "\x7b\"Data\":\x7b\"Load\":2.5\x7d\x7d")] }

/-- The example parser state with an envelope whose field name holds parentheses. -/
def Example.queryParserParen : QueryParser :=
  { hostname := "h1", tags := [("env", "prod")],
    data := [("/r/cpu/load", "\x7b\"Data\":\x7b\"Load(1m)\":2.5\x7d\x7d")] }

/-! ## Association lists -/

theorem GoMap.get_set_self {α : Type} (m : List (String × α)) (k : String) (v : α) :
    GoMap.get (GoMap.set m k v) k = some v := by
  induction m with
  | nil => simp [GoMap.set, GoMap.get]
  | cons p rest ih =>
    obtain ⟨k', v'⟩ := p
    by_cases h : k' = k
    · simp [GoMap.set, GoMap.get, h]
    · simp [GoMap.set, GoMap.get, h, ih]

theorem GoMap.get_set_of_ne {α : Type} (m : List (String × α)) (k k' : String) (v : α)
    (hne : k ≠ k') : GoMap.get (GoMap.set m k v) k' = GoMap.get m k' := by
  induction m with
  | nil => simp [GoMap.set, GoMap.get, hne]
  | cons p rest ih =>
    obtain ⟨k₀, v₀⟩ := p
    by_cases h : k₀ = k
    · subst h
      simp [GoMap.set, GoMap.get, hne]
    · by_cases h2 : k₀ = k'
      · subst h2
        simp [GoMap.set, GoMap.get, h]
      · simp [GoMap.set, GoMap.get, h, h2, ih]

/-! ## The execution engine: `Run`, `saveRun`, `GetRunByPath` -/

/-- With no output, `saveRun` leaves the agent as it is. -/
theorem Agent.saveRun_no_output (w : World) (a : Agent) (config : Config) (err : GoError) :
    (a.saveRun w config none err).1 = a := by
  unfold Agent.saveRun
  by_cases hp : config.Path = ""
  · simp [hp]
  · by_cases he : err = none
    · simp [hp, he]
    · simp only [hp, he, if_false, and_false, true_and]
      cases a.hostData w with
      | error e => rfl
      | ok host => simp [jsonUnmarshal]

/-- With no output, an error and a non-empty path, `saveRun` returns an error. -/
theorem Agent.saveRun_no_output_err (w : World) (a : Agent) (config : Config) (e : String)
    (hp : config.Path ≠ "") : (a.saveRun w config none (some e)).2 ≠ none := by
  unfold Agent.saveRun
  simp only [hp, if_false, and_false, true_and, reduceCtorEq]
  cases a.hostData w with
  | error e => simp
  | ok host => simp [jsonUnmarshal]

/-- The writer initialisation changes no field of the config but `GoStructFields`. -/
theorem Agent.initWriter_config (w : World) (a : Agent) (config c : Config)
    (r : Except String ITask) (h : a.initWriter w config = some (c, r)) :
    c.Path = config.Path ∧ c.Kind = config.Kind ∧ c.GoStruct = config.GoStruct := by
  unfold Agent.initWriter at h
  split at h
  · unfold Agent.initResourcedMasterWriter at h
    cases h1 : a.resolveUrl config with
    | none => simp [h1] at h
    | some fields =>
      cases h2 : a.resolveUsername fields with
      | none => simp [h1, h2] at h
      | some fields2 =>
        simp only [h1, h2, Option.some.injEq, Prod.mk.injEq] at h
        obtain ⟨rfl, _⟩ := h
        exact ⟨rfl, rfl, rfl⟩
  · simp only [Option.some.injEq, Prod.mk.injEq] at h
    obtain ⟨rfl, _⟩ := h
    exact ⟨rfl, rfl, rfl⟩

/-- The dispatch of `Run` changes no field of the config but `GoStructFields`. -/
theorem Agent.runKind_config (w : World) (a : Agent) (config c : Config)
    (out : Option Bytes) (err : GoError) (h : a.runKind w config = some (c, out, err)) :
    c.Path = config.Path ∧ c.Kind = config.Kind ∧ c.GoStruct = config.GoStruct := by
  unfold Agent.runKind at h
  split at h
  · simp only [Option.some.injEq, Prod.mk.injEq] at h
    obtain ⟨rfl, _⟩ := h
    exact ⟨rfl, rfl, rfl⟩
  · split at h
    · unfold Agent.runGoStructWriter at h
      split at h
      · exact absurd h (by simp)
      · rename_i c0 e0 hw
        simp only [Option.some.injEq, Prod.mk.injEq] at h
        obtain ⟨rfl, _⟩ := h
        exact Agent.initWriter_config w a config _ _ hw
      · rename_i c0 wr hw
        split at h <;>
        · simp only [Option.some.injEq, Prod.mk.injEq] at h
          obtain ⟨rfl, _⟩ := h
          exact Agent.initWriter_config w a config _ _ hw
    · split at h <;>
      · simp only [Option.some.injEq, Prod.mk.injEq] at h
        obtain ⟨rfl, _⟩ := h
        exact ⟨rfl, rfl, rfl⟩

/-- When construction fails the dispatch of `Run` yields no output and an error. -/
theorem Agent.runKind_of_constructionFails (w : World) (a : Agent) (config : Config)
    (h : a.constructionFails w config = true) :
    ∃ c e, a.runKind w config = some (c, none, some e) := by
  unfold Agent.constructionFails at h
  unfold Agent.runKind
  by_cases hg : config.GoStruct = ""
  · simp [hg] at h
  · simp only [hg, if_false] at h
    by_cases hr : config.Kind = "reader"
    · simp only [hr, if_true] at h
      simp only [hg, hr, ne_eq, not_false_eq_true, and_self, if_true]
      unfold Agent.runGoStructReader
      cases hi : a.initGoStructReader w config with
      | error e => exact ⟨config, e, rfl⟩
      | ok t => simp [hi] at h
    · simp only [hr, if_false] at h
      by_cases hw : config.Kind = "writer"
      · simp only [hw, if_true] at h
        simp only [hg, hw, ne_eq, not_false_eq_true, and_self, if_true, and_false, if_false,
          reduceCtorEq]
        unfold Agent.runGoStructWriter
        cases hi : a.initWriter w config with
        | none => simp [hi] at h
        | some p =>
          obtain ⟨c, r⟩ := p
          cases r with
          | error e => exact ⟨c, e, rfl⟩
          | ok t => simp [hi] at h
      · simp only [hw, if_false] at h
        by_cases hx : config.Kind = "executor"
        · simp only [hx, if_true] at h
          simp only [hg, hx, ne_eq, not_false_eq_true, and_self, if_true, and_false, if_false,
            reduceCtorEq]
          unfold Agent.runGoStructExecutor
          cases hi : a.initGoStructExecutor w config with
          | error e => exact ⟨config, e, rfl⟩
          | ok t => simp [hi] at h
        · simp [hx] at h

/-- C2: `saveRun` persists nothing and returns `nil` when `config.Path` is empty,
and when both the output and the error passed to it are absent: the agent, and
so its result cache, is the one before the call. -/
theorem saveRun_noop (w : World) (a : Agent) (config : Config) (output : Option Bytes)
    (err : GoError) (h : config.Path = "" ∨ (output = none ∧ err = none)) :
    (a.saveRun w config output err).2 = none ∧
    (a.saveRun w config output err).1 = a ∧
    (a.saveRun w config output err).1.ResultDB = a.ResultDB := by
  have key : a.saveRun w config output err = (a, none) := by
    unfold Agent.saveRun
    rcases h with h | ⟨h1, h2⟩
    · simp [h]
    · simp [h1, h2]
  rw [key]
  exact ⟨rfl, rfl, rfl⟩

/-- C2, at an empty path with an output, and at a non-empty path with neither
output nor error. -/
theorem saveRun_noop_witness :
    ((Example.agent []).saveRun Example.world (Example.config "reader" "")
        (some "\x7b\"Load\":2.5\x7d") none).1.ResultDB = (Example.agent []).ResultDB ∧
    ((Example.agent []).saveRun Example.world (Example.config "reader" "/load")
        none none).1.ResultDB = (Example.agent []).ResultDB :=
  ⟨(saveRun_noop Example.world (Example.agent []) (Example.config "reader" "")
      (some "\x7b\"Load\":2.5\x7d") none (Or.inl rfl)).2.2,
   (saveRun_noop Example.world (Example.agent []) (Example.config "reader" "/load")
      none none (Or.inr ⟨rfl, rfl⟩)).2.2⟩

/-- C3: when constructing the task fails, `Run` completes with no output and
writes nothing: the agent after the run is the agent before it, so the result
cache is unchanged and every path reads as it did. -/
theorem run_constructionFails_no_write (w : World) (a : Agent) (config : Config)
    (h : a.constructionFails w config = true) :
    ∃ r, a.Run w config = some r ∧ r.output = none ∧ r.agent.ResultDB = a.ResultDB ∧
      ∀ path, r.agent.GetRunByPath path = a.GetRunByPath path := by
  obtain ⟨c, e, hk⟩ := Agent.runKind_of_constructionFails w a config h
  have hs := Agent.saveRun_no_output w a c (some e)
  refine ⟨{ agent := (a.saveRun w c none (some e)).1, config := c, output := none,
             err := (a.saveRun w c none (some e)).2 }, ?_, rfl, ?_, ?_⟩
  · simp only [Agent.Run, hk]
  · simp only [hs]
  · intro path
    simp only [hs]

/-- C3, at a reader config whose implementation the registry does not know, over
a cache that holds an earlier envelope at the canonical path. -/
theorem run_constructionFails_no_write_witness :
    ∃ r, Agent.Run Example.worldNoPlugin
        { Example.agent [] with ResultDB := [("/r/load", "old")] }
        (Example.config "reader" "/load") = some r ∧ r.output = none ∧
      r.agent.ResultDB = [("/r/load", "old")] ∧
      ∀ path, r.agent.GetRunByPath path =
        Agent.GetRunByPath { Example.agent [] with ResultDB := [("/r/load", "old")] } path :=
  run_constructionFails_no_write Example.worldNoPlugin
    { Example.agent [] with ResultDB := [("/r/load", "old")] }
    (Example.config "reader" "/load") (by decide)

/-- C4 (as stated, refuted): a reader config with an empty path whose
construction fails makes `Run` return a `nil` error. -/
theorem run_constructionFails_empty_path_nil :
    Agent.constructionFails Example.worldNoPlugin (Example.agent [])
      (Example.config "reader" "") = true ∧
    (Agent.Run Example.worldNoPlugin (Example.agent []) (Example.config "reader" "")).map
      (fun r => r.err) = some none := by
  decide

/-- C4 (amended): for a config with a non-empty path, when constructing the task
fails `Run` completes and the error it returns is not `nil`. -/
theorem run_constructionFails_err (w : World) (a : Agent) (config : Config)
    (hp : config.Path ≠ "") (h : a.constructionFails w config = true) :
    ∃ r, a.Run w config = some r ∧ r.err ≠ none := by
  obtain ⟨c, e, hk⟩ := Agent.runKind_of_constructionFails w a config h
  have hc := (Agent.runKind_config w a config c none (some e) hk).1
  have hs := Agent.saveRun_no_output_err w a c e (by rw [hc]; exact hp)
  refine ⟨{ agent := (a.saveRun w c none (some e)).1, config := c, output := none,
             err := (a.saveRun w c none (some e)).2 }, ?_, hs⟩
  simp only [Agent.Run, hk]

/-- C4 (amended), at an executor config with path `/uptime` whose implementation
the registry does not know. -/
theorem run_constructionFails_err_witness :
    ∃ r, Agent.Run Example.worldNoPlugin (Example.agent [])
        (Example.config "executor" "/uptime") = some r ∧ r.err ≠ none :=
  run_constructionFails_err Example.worldNoPlugin (Example.agent [])
    (Example.config "executor" "/uptime") (by decide) (by decide)

/-- The dispatch of `Run` runs the task `taskOf` names. -/
theorem Agent.runKind_of_taskOf (w : World) (a : Agent) (config c : Config) (t : ITask)
    (h : a.taskOf w config = some (c, t)) :
    a.runKind w config = some (c, a.runGoStruct w t) := by
  unfold Agent.taskOf at h
  unfold Agent.runKind
  by_cases hg : config.GoStruct = ""
  · simp [hg] at h
  · simp only [hg, if_false] at h
    by_cases hr : config.Kind = "reader"
    · simp only [hr, if_true] at h
      simp only [hg, hr, ne_eq, not_false_eq_true, and_self, if_true]
      unfold Agent.runGoStructReader
      cases hi : a.initGoStructReader w config with
      | error e => simp [hi] at h
      | ok t0 =>
        simp only [hi, Option.some.injEq, Prod.mk.injEq] at h
        obtain ⟨rfl, rfl⟩ := h
        rfl
    · simp only [hr, if_false] at h
      by_cases hw : config.Kind = "writer"
      · simp only [hw, if_true] at h
        rw [if_neg (fun h0 => hr h0.2), if_pos ⟨hg, hw⟩]
        unfold Agent.runGoStructWriter
        cases hi : a.initWriter w config with
        | none => simp [hi] at h
        | some p =>
          obtain ⟨c0, r⟩ := p
          cases r with
          | error e => simp [hi] at h
          | ok t0 =>
            simp only [hi] at h
            cases hgd : t0.GenerateData t0.data with
            | some e => simp [hgd] at h
            | none =>
              simp only [hgd, Option.some.injEq, Prod.mk.injEq] at h
              obtain ⟨rfl, rfl⟩ := h
              simp only [hgd]
      · simp only [hw, if_false] at h
        by_cases hx : config.Kind = "executor"
        · simp only [hx, if_true] at h
          rw [if_neg (fun h0 => hr h0.2), if_neg (fun h0 => hw h0.2), if_pos ⟨hg, hx⟩]
          unfold Agent.runGoStructExecutor
          cases hi : a.initGoStructExecutor w config with
          | error e => simp [hi] at h
          | ok t0 =>
            simp only [hi, Option.some.injEq, Prod.mk.injEq] at h
            obtain ⟨rfl, rfl⟩ := h
            rfl
        · simp [hx] at h

/-- With a non-empty path, an output that parses, a host and an envelope that
marshals, `saveRun` stores the marshalled envelope under the canonical path. -/
theorem Agent.saveRun_output (w : World) (a : Agent) (config : Config) (O : Bytes)
    (err : GoError) (v : Json) (host : Host) (bytes : Bytes)
    (hp : config.Path ≠ "") (hv : jsonUnmarshal w (some O) = Except.ok v)
    (hh : a.hostData w = Except.ok host)
    (hm : w.jsonMarshal (Json.obj (Agent.envelope w config host v)) = Except.ok bytes) :
    a.saveRun w config (some O) err =
      ({ a with ResultDB := GoMap.set a.ResultDB (w.PathWithPrefix config) bytes }, none) := by
  unfold Agent.envelope at hm
  unfold Agent.saveRun
  simp only [hp, if_false, reduceCtorEq, false_and, hh, hv, hm]

/-- The `Data` field of an envelope is the payload it was built with. -/
theorem Agent.envelope_data (w : World) (config : Config) (host : Host) (data : Json) :
    GoMap.get (Agent.envelope w config host data) "Data" = some data :=
  GoMap.get_set_self _ _ _

/-- What `Run` leaves when the dispatch gives an output that parses, the host
lookup succeeds and the envelope marshals. -/
theorem Agent.run_output (w : World) (a : Agent) (config c : Config) (O : Bytes)
    (v : Json) (host : Host) (bytes : Bytes)
    (hp : config.Path ≠ "") (hk : a.runKind w config = some (c, some O, none))
    (hv : jsonUnmarshal w (some O) = Except.ok v) (hh : a.hostData w = Except.ok host)
    (hm : w.jsonMarshal (Json.obj (Agent.envelope w c host v)) = Except.ok bytes) :
    ∃ r, a.Run w config = some r ∧ r.output = some O ∧ r.err = none ∧
      GoMap.get r.agent.ResultDB (w.PathWithPrefix c) = some bytes ∧
      r.agent.GetRunByPath (w.PathWithPrefix c) = (some bytes, none) := by
  have hc := (Agent.runKind_config w a config c (some O) none hk).1
  have hs := Agent.saveRun_output w a c O none v host bytes (by rw [hc]; exact hp) hv hh hm
  refine ⟨{ agent := (a.saveRun w c (some O) none).1, config := c, output := some O,
             err := (a.saveRun w c (some O) none).2 }, ?_, rfl, ?_, ?_, ?_⟩
  · simp only [Agent.Run, hk]
  · simp only [hs]
  · simp only [hs, GoMap.get_set_self]
  · simp only [hs, Agent.GetRunByPath, GoMap.get_set_self]

/-- C1: for a config with a non-empty path whose task is constructed, runs
without error and serialises to an output `O` that parses to `v`, when the host
lookup succeeds and the envelope marshals to `bytes`, `Run` completes with a
`nil` error, the cache holds under the canonical path the envelope, whose `Data`
field is `v`, and `GetRunByPath` on that path returns these bytes and a `nil`
error. -/
theorem run_ok_cached (w : World) (a : Agent) (config c : Config) (t : ITask) (O : Bytes)
    (v : Json) (host : Host) (bytes : Bytes)
    (hp : config.Path ≠ "") (ht : a.taskOf w config = some (c, t))
    (hrun : t.Run t.data = none) (hjson : t.ToJson t.data = (some O, none))
    (hv : jsonUnmarshal w (some O) = Except.ok v) (hh : a.hostData w = Except.ok host)
    (hm : w.jsonMarshal (Json.obj (Agent.envelope w c host v)) = Except.ok bytes) :
    ∃ r, a.Run w config = some r ∧ r.output = some O ∧ r.err = none ∧
      GoMap.get (Agent.envelope w c host v) "Data" = some v ∧
      GoMap.get r.agent.ResultDB (w.PathWithPrefix c) = some bytes ∧
      r.agent.GetRunByPath (w.PathWithPrefix c) = (some bytes, none) := by
  have hk : a.runKind w config = some (c, some O, none) := by
    rw [Agent.runKind_of_taskOf w a config c t ht]
    simp only [Agent.runGoStruct, hrun, hjson]
  obtain ⟨r, h1, h2, h3, h4, h5⟩ := Agent.run_output w a config c O v host bytes hp hk hv hh hm
  exact ⟨r, h1, h2, h3, Agent.envelope_data w c host v, h4, h5⟩

/-- C1, at a reader config with path `/load` whose task serialises to
`{"Load":2.5}`. -/
theorem run_ok_cached_witness :
    ∃ r, Agent.Run Example.world (Example.agent []) (Example.config "reader" "/load") = some r ∧
      r.output = some "\x7b\"Load\":2.5\x7d" ∧ r.err = none ∧
      GoMap.get (Agent.envelope Example.world (Example.config "reader" "/load")
        { Name := "h1", Tags := [("env", "prod")] } (Json.obj [("Load", Json.num 25 (-1))]))
        "Data" = some (Json.obj [("Load", Json.num 25 (-1))]) ∧
      GoMap.get r.agent.ResultDB "/r/load" =
        some Example.loadEnvelope ∧
      r.agent.GetRunByPath "/r/load" =
        (some Example.loadEnvelope, none) :=
  run_ok_cached Example.world (Example.agent []) (Example.config "reader" "/load")
    (Example.config "reader" "/load") (Example.task none (some "\x7b\"Load\":2.5\x7d", none))
    "\x7b\"Load\":2.5\x7d" (Json.obj [("Load", Json.num 25 (-1))])
    { Name := "h1", Tags := [("env", "prod")] }
    Example.loadEnvelope
    (by decide) rfl rfl rfl rfl rfl rfl

/-- C5 (as stated, refuted): a reader whose `Run` fails with `boom`, under a
config with path `/load`, while the host lookup fails: `Run` completes and the
cache holds nothing under the canonical path. -/
theorem run_failure_not_cached_without_host :
    (Agent.taskOf Example.worldRunFailsNoHost (Example.agent [])
      (Example.config "reader" "/load")).map (fun p => p.2.Run p.2.data) = some (some "boom") ∧
    (Agent.Run Example.worldRunFailsNoHost (Example.agent [])
      (Example.config "reader" "/load")).map
      (fun r => (r.output, r.agent.ResultDB,
        r.agent.GetRunByPath (Example.worldRunFailsNoHost.PathWithPrefix r.config))) =
      some (some "\x7b\"Error\":\"boom\"\x7d", [], (none, none)) := by
  decide

/-- C5 (amended): for a constructed task whose `Run` fails with message `m`, the
error payload marshalling to `out`, `runGoStruct` returns `out` with a `nil`
error; and for a config with a non-empty path, when the host lookup succeeds,
`out` parses back to the payload and the envelope marshals to `bytes`, `Run`
stores under the canonical path the envelope whose `Data` field is the object
`{"Error": m}`. -/
theorem run_failure_cached (w : World) (a : Agent) (config c : Config) (t : ITask)
    (m : String) (out : Bytes) (host : Host) (bytes : Bytes)
    (ht : a.taskOf w config = some (c, t)) (hrun : t.Run t.data = some m)
    (hout : w.jsonMarshal (errData m) = Except.ok out) :
    a.runGoStruct w t = (some out, none) ∧
    (config.Path ≠ "" → a.hostData w = Except.ok host →
      jsonUnmarshal w (some out) = Except.ok (errData m) →
      w.jsonMarshal (Json.obj (Agent.envelope w c host (errData m))) = Except.ok bytes →
      ∃ r, a.Run w config = some r ∧ r.output = some out ∧ r.err = none ∧
        GoMap.get (Agent.envelope w c host (errData m)) "Data"
          = some (Json.obj [("Error", Json.str m)]) ∧
        GoMap.get r.agent.ResultDB (w.PathWithPrefix c) = some bytes ∧
        r.agent.GetRunByPath (w.PathWithPrefix c) = (some bytes, none)) := by
  have hg : a.runGoStruct w t = (some out, none) := by
    simp only [Agent.runGoStruct, hrun, hout]
  refine ⟨hg, fun hp hh hv hm => ?_⟩
  have hk : a.runKind w config = some (c, some out, none) := by
    rw [Agent.runKind_of_taskOf w a config c t ht, hg]
  obtain ⟨r, h1, h2, h3, h4, h5⟩ :=
    Agent.run_output w a config c out (errData m) host bytes hp hk hv hh hm
  exact ⟨r, h1, h2, h3, Agent.envelope_data w c host (errData m), h4, h5⟩

/-- C5 (amended), at a reader config with path `/load` whose task fails with
`boom`. -/
theorem run_failure_cached_witness :
    Agent.runGoStruct Example.worldRunFails (Example.agent [])
        (Example.task (some "boom") (none, none)) = (some "\x7b\"Error\":\"boom\"\x7d", none) ∧
    ∃ r, Agent.Run Example.worldRunFails (Example.agent [])
        (Example.config "reader" "/load") = some r ∧
      r.output = some "\x7b\"Error\":\"boom\"\x7d" ∧ r.err = none ∧
      GoMap.get (Agent.envelope Example.worldRunFails (Example.config "reader" "/load")
        { Name := "h1", Tags := [("env", "prod")] } (errData "boom")) "Data"
          = some (Json.obj [("Error", Json.str "boom")]) ∧
      GoMap.get r.agent.ResultDB "/r/load" =
        some Example.boomEnvelope ∧
      r.agent.GetRunByPath "/r/load" =
        (some Example.boomEnvelope, none) :=
  have h := run_failure_cached Example.worldRunFails (Example.agent [])
    (Example.config "reader" "/load") (Example.config "reader" "/load")
    (Example.task (some "boom") (none, none)) "boom" "\x7b\"Error\":\"boom\"\x7d"
    { Name := "h1", Tags := [("env", "prod")] }
    Example.boomEnvelope rfl rfl rfl
  ⟨h.1, h.2 (by decide) rfl rfl rfl⟩

/-! ## Data assembly -/

/-- A reader path that is not the graphite one gets an entry in the readers data,
whether or not the cache resolves it. -/
theorem Agent.addReaderData_self (w : World) (a : Agent)
    (acc : List (String × Option Bytes)) (p : String) (hg : HasSuffix p "/graphite" = false) :
    GoMap.get (a.addReaderData w acc p) p
      = some (GoMap.get a.ResultDB (PathWithKindPrefix "r" p)) := by
  unfold Agent.addReaderData Agent.GetRunByPath
  simp only [hg, Bool.false_eq_true, if_false]
  cases GoMap.get a.ResultDB (PathWithKindPrefix "r" p) <;> simp [GoMap.get_set_self]

/-- One turn of the loop leaves the entries of the other paths as they are. -/
theorem Agent.addReaderData_of_ne (w : World) (a : Agent)
    (acc : List (String × Option Bytes)) (q p : String) (hne : q ≠ p) :
    GoMap.get (a.addReaderData w acc q) p = GoMap.get acc p := by
  unfold Agent.addReaderData Agent.GetRunByPath
  by_cases hg : HasSuffix q "/graphite" = true
  · simp only [hg, if_true]
    cases w.jsonMarshal
      (Json.obj (GoMap.set (a.commonGraphiteData w) "Data" a.GraphiteDB)) with
    | error e => rfl
    | ok b => exact GoMap.get_set_of_ne _ _ _ _ hne
  · simp only [hg, if_false]
    cases GoMap.get a.ResultDB (PathWithKindPrefix "r" q) <;>
      exact GoMap.get_set_of_ne _ _ _ _ hne

/-- The loop over the reader paths, from any starting map. -/
theorem Agent.foldl_addReaderData (w : World) (a : Agent) (p : String)
    (hg : HasSuffix p "/graphite" = false) (paths : List String) :
    ∀ acc : List (String × Option Bytes),
      (p ∈ paths ∨ GoMap.get acc p = some (GoMap.get a.ResultDB (PathWithKindPrefix "r" p))) →
      GoMap.get (paths.foldl (a.addReaderData w) acc) p
        = some (GoMap.get a.ResultDB (PathWithKindPrefix "r" p)) := by
  induction paths with
  | nil =>
    intro acc h
    rcases h with h | h
    · simp at h
    · exact h
  | cons q qs ih =>
    intro acc h
    simp only [List.foldl_cons]
    apply ih
    by_cases hq : q = p
    · right
      subst hq
      exact Agent.addReaderData_self w a acc q hg
    · rcases h with h | h
      · left
        rcases List.mem_cons.1 h with h1 | h1
        · exact absurd h1.symm hq
        · exact h1
      · right
        rw [Agent.addReaderData_of_ne w a acc q p hq]
        exact h

/-- What the code hands to a writer for a regular reader path: the path is a key
of the readers data, mapped to the cached bytes when the cache has them and to
the `nil` slice when it has not. -/
theorem Agent.readersData_get (w : World) (a : Agent) (config : Config) (p : String)
    (hmem : p ∈ config.ReaderPaths) (hg : HasSuffix p "/graphite" = false) :
    GoMap.get (a.readersData w config) p
      = some (GoMap.get a.ResultDB (PathWithKindPrefix "r" p)) :=
  Agent.foldl_addReaderData w a p hg config.ReaderPaths [] (Or.inl hmem)

/-- C8 (the code at the failing input): for the reader paths `/cpu/info` and
`/load` over a cache that holds `/r/load` only, the readers data handed to the
writer has the key `/cpu/info`, mapped to the `nil` slice, next to `/load` with
its cached bytes. -/
theorem initGoStructWriter_unresolved_key_present :
    (Agent.initGoStructWriter Example.world
        { Example.agent [] with ResultDB := [("/r/load", "envelope")] }
        (Example.writerConfig ["/cpu/info", "/load"])).toOption.map
      (fun writer => writer.data.ReadersData)
      = some [("/cpu/info", none), ("/load", some "envelope")] := by
  decide

/-! ## Default endpoint and credential of the master writers -/

/-- Go `strings.HasSuffix` holds of a text appended to any other. -/
theorem HasSuffix_append (s p : String) : HasSuffix (s ++ p) p = true := by
  unfold HasSuffix
  rw [String.data_append, List.isSuffixOf_iff_suffix]
  exact List.suffix_append _ _

/-- The `Url` step on an allocated field map whose `Url` is absent, `nil` or a
string. -/
theorem Agent.resolveUrl_of_allocated (a : Agent) (config : Config)
    (entries : List (String × Json)) (hg : config.GoStruct = "ResourcedMasterHost")
    (hl : config.GoStructFields = some entries)
    (hu : ∀ v, GoMap.get entries "Url" = some v → v = Json.null ∨ ∃ u, v = Json.str u) :
    ∃ fields, a.resolveUrl config = some (some fields) ∧
      GoMap.get fields "Username" = GoMap.get entries "Username" ∧
      (∀ u, GoMap.get entries "Url" = some (Json.str u) →
        HasSuffix u "/api/hosts" = true → GoMap.get fields "Url" = some (Json.str u)) ∧
      ((∀ u, GoMap.get entries "Url" = some (Json.str u) →
          HasSuffix u "/api/hosts" = false) →
        GoMap.get fields "Url"
          = some (Json.str (a.GeneralConfig.ResourcedMaster.URL ++ "/api/hosts"))) ∧
      (∃ u, GoMap.get fields "Url" = some (Json.str u) ∧ HasSuffix u "/api/hosts" = true) := by
  have hne : "Url" ≠ "Username" := by decide
  unfold Agent.resolveUrl
  simp only [hg, if_true, hl, GoMap.read, GoMap.assign]
  cases hU : GoMap.get entries "Url" with
  | none =>
    refine ⟨_, rfl, GoMap.get_set_of_ne _ _ _ _ hne, ?_, ?_, ?_⟩
    · intro u h
      exact absurd h (by simp)
    · intro _
      exact GoMap.get_set_self _ _ _
    · exact ⟨_, GoMap.get_set_self _ _ _, HasSuffix_append _ _⟩
  | some v =>
    rcases hu v hU with rfl | ⟨u, rfl⟩
    · refine ⟨_, rfl, GoMap.get_set_of_ne _ _ _ _ hne, ?_, ?_, ?_⟩
      · intro u h
        exact absurd h (by simp)
      · intro _
        exact GoMap.get_set_self _ _ _
      · exact ⟨_, GoMap.get_set_self _ _ _, HasSuffix_append _ _⟩
    · by_cases hs : HasSuffix u "/api/hosts" = true
      · refine ⟨entries, by simp [hs], rfl, ?_, ?_, ?_⟩
        · intro u0 h _
          rw [← h]
          exact hU
        · intro h
          have := h u rfl
          rw [hs] at this
          exact absurd this (by simp)
        · exact ⟨u, hU, hs⟩
      · have hs0 : HasSuffix u "/api/hosts" = false := by
          simpa using hs
        refine ⟨GoMap.set entries "Url"
            (Json.str (a.GeneralConfig.ResourcedMaster.URL ++ "/api/hosts")),
          by simp only [hs0, Bool.not_false, if_true],
          GoMap.get_set_of_ne _ _ _ _ hne, ?_, ?_, ?_⟩
        · intro u0 h h2
          simp only [Option.some.injEq, Json.str.injEq] at h
          subst h
          rw [hs0] at h2
          exact absurd h2 (by simp)
        · intro _
          exact GoMap.get_set_self _ _ _
        · exact ⟨_, GoMap.get_set_self _ _ _, HasSuffix_append _ _⟩

/-- The `Username` step on an allocated field map: it does not panic, leaves every
other field as it is, keeps a `Username` that is present and not `nil`, and
otherwise writes the general access token. -/
theorem Agent.resolveUsername_of_allocated (a : Agent) (entries : List (String × Json)) :
    ∃ fields, a.resolveUsername (some entries) = some (some fields) ∧
      (∀ k, "Username" ≠ k → GoMap.get fields k = GoMap.get entries k) ∧
      (∀ v, GoMap.get entries "Username" = some v → v ≠ Json.null →
        GoMap.get fields "Username" = some v) ∧
      ((GoMap.get entries "Username" = none ∨
          GoMap.get entries "Username" = some Json.null) →
        GoMap.get fields "Username"
          = some (Json.str a.GeneralConfig.ResourcedMaster.AccessToken)) := by
  unfold Agent.resolveUsername
  simp only [GoMap.read, GoMap.assign]
  cases hU : GoMap.get entries "Username" with
  | none =>
    refine ⟨_, rfl, fun k hk => GoMap.get_set_of_ne _ _ _ _ hk, ?_, ?_⟩
    · intro v hv
      exact absurd hv (by simp)
    · intro _
      exact GoMap.get_set_self _ _ _
  | some v =>
    cases v with
    | null =>
      refine ⟨_, rfl, fun k hk => GoMap.get_set_of_ne _ _ _ _ hk, ?_, ?_⟩
      · intro v hv hnull
        simp only [Option.some.injEq] at hv
        exact absurd hv.symm hnull
      · intro _
        exact GoMap.get_set_self _ _ _
    | bool b =>
      refine ⟨entries, rfl, fun k _ => rfl, fun v hv _ => hv ▸ hU, ?_⟩
      rintro (h | h) <;> simp at h
    | num m e =>
      refine ⟨entries, rfl, fun k _ => rfl, fun v hv _ => hv ▸ hU, ?_⟩
      rintro (h | h) <;> simp at h
    | str t =>
      refine ⟨entries, rfl, fun k _ => rfl, fun v hv _ => hv ▸ hU, ?_⟩
      rintro (h | h) <;> simp at h
    | arr xs =>
      refine ⟨entries, rfl, fun k _ => rfl, fun v hv _ => hv ▸ hU, ?_⟩
      rintro (h | h) <;> simp at h
    | obj kvs =>
      refine ⟨entries, rfl, fun k _ => rfl, fun v hv _ => hv ▸ hU, ?_⟩
      rintro (h | h) <;> simp at h

/-- C9 (as stated, refuted): with a `Url` field that holds the number 5 the
initialisation panics and resolves nothing, and so it does on a config whose
field map is the `nil` map. -/
theorem initResourcedMasterWriter_panics_on_number :
    (Agent.initResourcedMasterWriter Example.world (Example.agent [])
      (Example.masterConfig [("Url", Json.num 5 0)])).isNone = true ∧
    (Agent.initResourcedMasterWriter Example.world (Example.agent [])
      Example.masterConfigNil).isNone = true := by
  decide

/-- C9 (amended): for a config with GoStruct `ResourcedMasterHost` whose field
map is allocated (not the `nil` map) and whose `Url` field is absent, `nil` or a
string, the initialisation completes, initialises the writer from the resolved
config, and leaves under `Url` the configured string when it ends with
`/api/hosts` and otherwise the general URL followed by `/api/hosts`, so always a
string ending with `/api/hosts`; under `Username` it leaves the configured value
when present and not `nil`, otherwise the general access token. -/
theorem initResourcedMasterWriter_fields (w : World) (a : Agent) (config : Config)
    (hg : config.GoStruct = "ResourcedMasterHost")
    (halloc : config.GoStructFields ≠ none)
    (hu : ∀ v, GoMap.read config.GoStructFields "Url" = some v →
      v = Json.null ∨ ∃ u, v = Json.str u) :
    ∃ c, a.initResourcedMasterWriter w config = some (c, a.initGoStructWriter w c) ∧
      (∀ u, GoMap.read config.GoStructFields "Url" = some (Json.str u) →
        HasSuffix u "/api/hosts" = true →
        GoMap.read c.GoStructFields "Url" = some (Json.str u)) ∧
      ((∀ u, GoMap.read config.GoStructFields "Url" = some (Json.str u) →
          HasSuffix u "/api/hosts" = false) →
        GoMap.read c.GoStructFields "Url"
          = some (Json.str (a.GeneralConfig.ResourcedMaster.URL ++ "/api/hosts"))) ∧
      (∃ u, GoMap.read c.GoStructFields "Url" = some (Json.str u) ∧
        HasSuffix u "/api/hosts" = true) ∧
      (∀ v, GoMap.read config.GoStructFields "Username" = some v → v ≠ Json.null →
        GoMap.read c.GoStructFields "Username" = some v) ∧
      ((GoMap.read config.GoStructFields "Username" = none ∨
          GoMap.read config.GoStructFields "Username" = some Json.null) →
        GoMap.read c.GoStructFields "Username"
          = some (Json.str a.GeneralConfig.ResourcedMaster.AccessToken)) := by
  have hne2 : "Username" ≠ "Url" := by decide
  obtain ⟨entries, hl⟩ := Option.ne_none_iff_exists'.1 halloc
  rw [hl] at hu
  obtain ⟨fields, hf, huser, h1, h2, h3⟩ := a.resolveUrl_of_allocated config entries hg hl hu
  obtain ⟨fields2, hf2, hother, h4, h5⟩ := a.resolveUsername_of_allocated fields
  have hurl2 : GoMap.get fields2 "Url" = GoMap.get fields "Url" := hother "Url" hne2
  refine ⟨{ config with GoStructFields := some fields2 }, ?_, ?_, ?_, ?_, ?_, ?_⟩
  · simp only [Agent.initResourcedMasterWriter, hf, hf2]
  · intro u hU hs
    rw [hl] at hU
    exact hurl2.trans (h1 u hU hs)
  · intro h
    rw [hl] at h
    exact hurl2.trans (h2 h)
  · obtain ⟨u, hu1, hu2⟩ := h3
    exact ⟨u, hurl2.trans hu1, hu2⟩
  · intro v hv hnull
    rw [hl] at hv
    exact h4 v (huser.trans hv) hnull
  · intro h
    rw [hl] at h
    apply h5
    rcases h with h | h
    · exact Or.inl (huser.trans h)
    · exact Or.inr (huser.trans h)

/-- C9 (amended), at a config whose `Url` lacks the suffix and whose `Username`
is set. -/
theorem initResourcedMasterWriter_fields_witness :
    ∃ c, Agent.initResourcedMasterWriter Example.world (Example.agent [])
        (Example.masterConfig [("Url", Json.str "http://other:1234"),
          ("Username", Json.str "me")]) = some (c, Agent.initGoStructWriter Example.world
            (Example.agent []) c) ∧
      GoMap.read c.GoStructFields "Url" = some (Json.str "http://master:55655/api/hosts") ∧
      GoMap.read c.GoStructFields "Username" = some (Json.str "me") := by
  obtain ⟨c, h0, _, h2, _, h4, _⟩ :=
    initResourcedMasterWriter_fields Example.world (Example.agent [])
      (Example.masterConfig [("Url", Json.str "http://other:1234"),
        ("Username", Json.str "me")]) rfl (by simp [Example.masterConfig])
      (by
        intro v hv
        have hv2 : v = Json.str "http://other:1234" := by
          have h : some (Json.str "http://other:1234") = some v := hv
          exact (Option.some.inj h).symm
        exact Or.inr ⟨_, hv2⟩)
  refine ⟨c, h0, ?_, ?_⟩
  · apply h2
    intro u hu
    have h : some (Json.str "http://other:1234") = some (Json.str u) := hu
    have hu2 : u = "http://other:1234" := by
      injection h with h
      injection h with h
      exact h.symm
    subst hu2
    decide
  · exact h4 (Json.str "me") rfl (by simp)

/-! ## Log shipping -/

/-- A buffer that has been reset holds no line. -/
theorem TSafeMapStrings.get_reset (db : List (String × List String)) (key : String) :
    TSafeMapStrings.Get (TSafeMapStrings.Reset db key) key = [] := by
  simp [TSafeMapStrings.Get, TSafeMapStrings.Reset, GoMap.get_set_self]

/-- C10: for a buffer holding `N > 0` lines under `Loglines`: when the host
lookup, the marshalling, the request and the send all succeed, `SendLog`
returns the marshalled body with a `nil` error and the buffer has length 0
afterwards; when the host lookup, the marshalling, the building of the request
or the send fails, `SendLog` returns an error that is not `nil` and the buffers
are the ones before the call. -/
theorem sendLog_buffer (w : World) (a : Agent) (logdb : List (String × List String))
    (filename : String) (hN : 0 < (TSafeMapStrings.Get logdb "Loglines").length) :
    (∀ host dataJson req, a.hostData w = Except.ok host →
      w.jsonMarshal (Agent.logPayload (TSafeMapStrings.Get logdb "Loglines") filename host)
        = Except.ok dataJson →
      w.httpNewRequest "POST" (a.GeneralConfig.ResourcedMaster.URL ++ "/api/logs") dataJson
        = Except.ok req →
      w.clientDo (a.logRequest req) = none →
      (a.SendLog w logdb filename).2.2 = none ∧
      (a.SendLog w logdb filename).2.1 = some dataJson ∧
      (TSafeMapStrings.Get (a.SendLog w logdb filename).1 "Loglines").length = 0) ∧
    (∀ e, a.hostData w = Except.error e →
      (a.SendLog w logdb filename).2.2 ≠ none ∧ (a.SendLog w logdb filename).1 = logdb) ∧
    (∀ host e, a.hostData w = Except.ok host →
      w.jsonMarshal (Agent.logPayload (TSafeMapStrings.Get logdb "Loglines") filename host)
        = Except.error e →
      (a.SendLog w logdb filename).2.2 ≠ none ∧ (a.SendLog w logdb filename).1 = logdb) ∧
    (∀ host dataJson e, a.hostData w = Except.ok host →
      w.jsonMarshal (Agent.logPayload (TSafeMapStrings.Get logdb "Loglines") filename host)
        = Except.ok dataJson →
      w.httpNewRequest "POST" (a.GeneralConfig.ResourcedMaster.URL ++ "/api/logs") dataJson
        = Except.error e →
      (a.SendLog w logdb filename).2.2 ≠ none ∧ (a.SendLog w logdb filename).1 = logdb) ∧
    (∀ host dataJson req e, a.hostData w = Except.ok host →
      w.jsonMarshal (Agent.logPayload (TSafeMapStrings.Get logdb "Loglines") filename host)
        = Except.ok dataJson →
      w.httpNewRequest "POST" (a.GeneralConfig.ResourcedMaster.URL ++ "/api/logs") dataJson
        = Except.ok req →
      w.clientDo (a.logRequest req) = some e →
      (a.SendLog w logdb filename).2.2 ≠ none ∧ (a.SendLog w logdb filename).1 = logdb) := by
  have hlen : ¬ (TSafeMapStrings.Get logdb "Loglines").length ≤ 0 := Nat.not_le.2 hN
  refine ⟨?_, ?_, ?_, ?_, ?_⟩
  · intro host dataJson req hh hm hr hd
    unfold Agent.logPayload at hm
    unfold Agent.logRequest at hd
    simp only [Agent.SendLog, hlen, if_false, hh, hm, hr, hd, TSafeMapStrings.get_reset,
      List.length_nil, and_self]
  · intro e hh
    simp only [Agent.SendLog, hlen, if_false, hh, ne_eq, reduceCtorEq, not_false_eq_true,
      and_self]
  · intro host e hh hm
    unfold Agent.logPayload at hm
    simp only [Agent.SendLog, hlen, if_false, hh, hm, ne_eq, reduceCtorEq, not_false_eq_true,
      and_self]
  · intro host dataJson e hh hm hr
    unfold Agent.logPayload at hm
    simp only [Agent.SendLog, hlen, if_false, hh, hm, hr, ne_eq, reduceCtorEq,
      not_false_eq_true, and_self]
  · intro host dataJson req e hh hm hr hd
    unfold Agent.logPayload at hm
    unfold Agent.logRequest at hd
    simp only [Agent.SendLog, hlen, if_false, hh, hm, hr, hd, ne_eq, reduceCtorEq,
      not_false_eq_true, and_self]

/-- C10, at the shared buffer holding one line: shipped to a receiver that
accepts it, and to one that refuses the connection. -/
theorem sendLog_buffer_witness :
    ((Agent.SendLog Example.world (Example.agent []) (Example.agent []).TCPLogDB "").2.2 = none ∧
      (Agent.SendLog Example.world (Example.agent []) (Example.agent []).TCPLogDB "").2.1
        = some Example.logBody ∧
      (TSafeMapStrings.Get
        (Agent.SendLog Example.world (Example.agent []) (Example.agent []).TCPLogDB "").1
        "Loglines").length = 0) ∧
    ((Agent.SendLog Example.worldSendFails (Example.agent [])
        (Example.agent []).TCPLogDB "").2.2 ≠ none ∧
      (Agent.SendLog Example.worldSendFails (Example.agent []) (Example.agent []).TCPLogDB "").1
        = (Example.agent []).TCPLogDB) :=
  ⟨(sendLog_buffer Example.world (Example.agent []) (Example.agent []).TCPLogDB ""
      (by decide)).1 { Name := "h1", Tags := [("env", "prod")] }
      Example.logBody
      { Method := "POST", URL := "http://master:55655/api/logs",
        Body := Example.logBody,
        BasicAuthUser := "", BasicAuthPassword := "" } rfl rfl rfl rfl,
   (sendLog_buffer Example.worldSendFails (Example.agent []) (Example.agent []).TCPLogDB ""
      (by decide)).2.2.2.2 { Name := "h1", Tags := [("env", "prod")] }
      Example.logBody
      { Method := "POST", URL := "http://master:55655/api/logs",
        Body := Example.logBody,
        BasicAuthUser := "", BasicAuthPassword := "" } "connection refused" rfl rfl rfl rfl⟩

/-! ## Access control -/

/-- The verdict of `IsAllowed`, as a proposition on the token list. -/
theorem Agent.isAllowed_true_iff (a : Agent) (t : String) :
    a.IsAllowed t = true ↔ a.AccessTokens = [] ∨ t ∈ a.AccessTokens := by
  unfold Agent.IsAllowed
  cases hL : a.AccessTokens with
  | nil => simp
  | cons x xs =>
    simp only [List.length_cons, Nat.succ_ne_zero, if_false, List.any_eq_true,
      decide_eq_true_eq, false_or, reduceCtorEq]
    constructor
    · rintro ⟨y, hy, rfl⟩
      exact hy
    · intro h
      exact ⟨t, h, rfl⟩

/-- C6: `IsAllowed(t)` is true exactly when the access-token list is empty or `t`
equals one of its elements; so an empty list allows every token and a non-empty
list allows exact matches only. -/
theorem isAllowed_iff (a : Agent) (t : String) :
    (a.IsAllowed t = true ↔ a.AccessTokens = [] ∨ t ∈ a.AccessTokens) ∧
    (a.AccessTokens = [] → a.IsAllowed t = true) ∧
    (a.AccessTokens ≠ [] → (a.IsAllowed t = true ↔ t ∈ a.AccessTokens)) := by
  have h := Agent.isAllowed_true_iff a t
  refine ⟨h, fun h0 => h.2 (Or.inl h0), fun hne => ?_⟩
  rw [h]
  exact ⟨fun h1 => h1.resolve_left hne, Or.inr⟩

/-- C7 (as stated, refuted): with an empty access-token list the input `batman`
is allowed. -/
theorem isAllowed_batman_of_no_tokens : (Example.agent []).IsAllowed "batman" = true := by
  decide

/-- C7 (amended): an agent whose access-token list is non-empty and does not hold
the input rejects it. -/
theorem isAllowed_false_of_not_mem (a : Agent) (t : String)
    (hne : a.AccessTokens ≠ []) (hnot : t ∉ a.AccessTokens) : a.IsAllowed t = false := by
  cases h : a.IsAllowed t with
  | false => rfl
  | true =>
    rcases (Agent.isAllowed_true_iff a t).1 h with h1 | h2
    · exact absurd h1 hne
    · exact absurd h2 hnot

/-- C7 (amended), at the tokens `abc123`, `def456` and the input `batman`. -/
theorem isAllowed_false_of_not_mem_witness :
    (Example.agent ["abc123", "def456"]).IsAllowed "batman" = false :=
  isAllowed_false_of_not_mem (Example.agent ["abc123", "def456"]) "batman"
    (by decide) (by decide)

/-! ## Log pruning -/

/-- What `PruneLogs` does to the buffers, by the threshold. -/
theorem Agent.pruneLogs_eq (a : Agent) (T : Int) (logdb : List (String × List String)) :
    a.PruneLogs T logdb =
      if T < Int.ofNat (TSafeMapStrings.Get logdb "Loglines").length then
        (TSafeMapStrings.Reset logdb "Loglines", none)
      else (logdb, none) := by
  unfold Agent.PruneLogs
  simp only [gt_iff_lt]

/-- A prune pass on a buffer longer than the threshold leaves it empty. -/
theorem Agent.pruneLogs_of_gt (a : Agent) (T : Int) (logdb : List (String × List String))
    (h : T < Int.ofNat (TSafeMapStrings.Get logdb "Loglines").length) :
    (TSafeMapStrings.Get (a.PruneLogs T logdb).1 "Loglines").length = 0 := by
  rw [Agent.pruneLogs_eq, if_pos h]
  simp only [TSafeMapStrings.get_reset, List.length_nil]

/-- C11: after `PruneLogs` with threshold `T` the `Loglines` buffer is empty when
its length before the call was greater than `T` and the buffers are unchanged
otherwise, also at length exactly `T`; the call returns `nil`; and for `T >= 0`
the length of the buffer after the call is at most `T`. -/
theorem pruneLogs_spec (a : Agent) (T : Int) (logdb : List (String × List String)) :
    (a.PruneLogs T logdb).2 = none ∧
    (T < Int.ofNat (TSafeMapStrings.Get logdb "Loglines").length →
      TSafeMapStrings.Get (a.PruneLogs T logdb).1 "Loglines" = []) ∧
    (Int.ofNat (TSafeMapStrings.Get logdb "Loglines").length ≤ T →
      (a.PruneLogs T logdb).1 = logdb) ∧
    (Int.ofNat (TSafeMapStrings.Get logdb "Loglines").length = T →
      (a.PruneLogs T logdb).1 = logdb) ∧
    (0 ≤ T →
      Int.ofNat (TSafeMapStrings.Get (a.PruneLogs T logdb).1 "Loglines").length ≤ T) := by
  rw [Agent.pruneLogs_eq]
  by_cases h : T < Int.ofNat (TSafeMapStrings.Get logdb "Loglines").length
  · simp only [if_pos h, TSafeMapStrings.get_reset, List.length_nil, true_and]
    refine ⟨fun _ => trivial, fun h2 => absurd h (not_lt.2 h2), fun h2 => ?_, fun h0 => h0⟩
    exact absurd h (not_lt.2 (le_of_eq h2))
  · simp only [if_neg h, true_and]
    exact ⟨fun h2 => absurd h2 h, fun _ => trivial, fun _ => trivial, fun _ => not_lt.1 h⟩

/-- One turn of the shared loop prunes whatever the shipment did: a buffer longer
than the threshold after `SendLog` is empty at the end of the turn. -/
theorem Agent.sendTCPLogIteration_prunes (w : World) (a : Agent) (config : LogReceiverConfig)
    (h : config.AutoPruneLength <
      Int.ofNat (TSafeMapStrings.Get (a.SendLog w a.TCPLogDB "").1 "Loglines").length) :
    (TSafeMapStrings.Get (a.sendTCPLogIteration w config).TCPLogDB "Loglines").length = 0 := by
  unfold Agent.sendTCPLogIteration
  exact Agent.pruneLogs_of_gt _ _ _ h

/-- One turn of the per-logger loop whose `SendLog` fails leaves the agent and the
buffers of the logger as they were: no prune pass runs. -/
theorem Agent.loggerIteration_of_send_error (w : World) (base64 : Bytes → String) (a : Agent)
    (config : Config) (logger : ILogger) (e : String)
    (h : (a.SendLog w logger.Data logger.File).2.2 = some e) :
    a.loggerIteration w base64 config logger
      = (a, { logger with Data := (a.SendLog w logger.Data logger.File).1 }) := by
  unfold Agent.loggerIteration
  rcases hs : a.SendLog w logger.Data logger.File with ⟨data, loglines, err⟩
  rw [hs] at h
  simp only at h
  subst h
  rfl

/-- C12 (the code at the failing input): a logger holding three lines with the
prune threshold 2, shipped to a receiver that refuses the connection: `SendLog`
fails and at the end of the turn of the per-logger loop the buffer still holds
the three lines; the turn of the shared loop on the same buffer empties it. -/
theorem loggerIteration_failed_send_keeps_buffer :
    (Agent.SendLog Example.worldSendFails (Example.agent []) Example.logger.Data
      Example.logger.File).2.2 = some "connection refused" ∧
    (Agent.loggerIteration Example.worldSendFails Example.base64 (Example.agent [])
      (Example.config "logger" "/logs") Example.logger).2.Data
      = [("Loglines", ["line one", "line two", "line three"])] ∧
    (Agent.sendTCPLogIteration Example.worldSendFails
      { Example.agent [] with TCPLogDB := Example.logger.Data }
      { WriteToMasterInterval := "60s", AutoPruneLength := 2 }).TCPLogDB
      = [("Loglines", [])] := by
  decide

/-! ## The canonical path rule -/

/-- A text starts with what it was built from by appending. -/
theorem HasPrefix_append (p s : String) : HasPrefix (p ++ s) p = true := by
  unfold HasPrefix
  rw [String.data_append, List.isPrefixOf_iff_prefix]
  exact List.prefix_append _ _

/-- A path that starts with `/<tag>` is its own canonical path. -/
theorem PathWithKindPrefix_of_hasPrefix (kind input : String)
    (h : HasPrefix input ("/" ++ kind) = true) : PathWithKindPrefix kind input = input := by
  unfold PathWithKindPrefix
  rw [if_pos h]

/-- C13: the canonical path rule is idempotent at every tag and path, and the six
paths of the test are as listed. -/
theorem PathWithKindPrefix_idempotent (k p : String) :
    PathWithKindPrefix k (PathWithKindPrefix k p) = PathWithKindPrefix k p ∧
    PathWithKindPrefix "r" "/stuff" = "/r/stuff" ∧
    PathWithKindPrefix "r" "/r/stuff" = "/r/stuff" ∧
    PathWithKindPrefix "w" "/stuff" = "/w/stuff" ∧
    PathWithKindPrefix "w" "/w/stuff" = "/w/stuff" ∧
    PathWithKindPrefix "x" "/stuff" = "/w/stuff" ∧
    PathWithKindPrefix "x" "/x/stuff" = "/x/stuff" := by
  refine ⟨?_, by decide, by decide, by decide, by decide, by decide, by decide⟩
  by_cases hp : HasPrefix p ("/" ++ k) = true
  · rw [PathWithKindPrefix_of_hasPrefix k p hp, PathWithKindPrefix_of_hasPrefix k p hp]
  · by_cases hr : k = "r"
    · subst hr
      have h1 : PathWithKindPrefix "r" p = "/r" ++ p := by
        unfold PathWithKindPrefix
        rw [if_neg hp, if_pos rfl]
      rw [h1]
      exact PathWithKindPrefix_of_hasPrefix "r" ("/r" ++ p) (HasPrefix_append "/r" p)
    · by_cases hw : HasPrefix p "/w" = true
      · have h1 : PathWithKindPrefix k p = p := by
          unfold PathWithKindPrefix
          rw [if_neg hp, if_neg hr, if_pos hw]
        rw [h1, h1]
      · have h1 : PathWithKindPrefix k p = "/w" ++ p := by
          unfold PathWithKindPrefix
          rw [if_neg hp, if_neg hr, if_neg hw]
        rw [h1]
        unfold PathWithKindPrefix
        by_cases hq : HasPrefix ("/w" ++ p) ("/" ++ k) = true
        · rw [if_pos hq]
        · rw [if_neg hq, if_neg hr, if_pos (HasPrefix_append "/w" p)]

/-! ## Go strings -/

theorem splitChars_ne_nil (sep : Char) (l : List Char) : splitChars sep l ≠ [] := by
  cases l with
  | nil => simp [splitChars]
  | cons c cs =>
    unfold splitChars
    split
    · simp
    · split <;> simp

theorem splitChars_length (sep : Char) (l : List Char) :
    (splitChars sep l).length = l.count sep + 1 := by
  induction l with
  | nil => simp [splitChars]
  | cons c cs ih =>
    unfold splitChars
    by_cases h : c = sep
    · subst h
      simp [ih]
    · have hc : (c == sep) = false := by simpa using h
      rw [if_neg h, List.count_cons, hc]
      cases hs : splitChars sep cs with
      | nil => exact absurd hs (splitChars_ne_nil sep cs)
      | cons piece pieces =>
        rw [hs] at ih
        simpa using ih

theorem splitChars_of_not_mem (sep : Char) (l : List Char) (h : sep ∉ l) :
    splitChars sep l = [l] := by
  induction l with
  | nil => simp [splitChars]
  | cons c cs ih =>
    have hc : c ≠ sep := fun e => h (by simp [e])
    have hcs : sep ∉ cs := fun e => h (List.mem_cons_of_mem _ e)
    unfold splitChars
    rw [if_neg hc, ih hcs]

theorem splitChars_append (sep : Char) (p s : List Char) (h : sep ∉ p) :
    splitChars sep (p ++ sep :: s) = p :: splitChars sep s := by
  induction p with
  | nil => simp [splitChars]
  | cons c cs ih =>
    have hc : c ≠ sep := fun e => h (by simp [e])
    have hcs : sep ∉ cs := fun e => h (List.mem_cons_of_mem _ e)
    rw [List.cons_append]
    conv => lhs; unfold splitChars
    rw [if_neg hc, ih hcs]

theorem String.mk_data_eq (s : String) : String.mk s.data = s := rfl

theorem Join_cons_cons_data (a b : String) (rest : List String) (sep : String) :
    (Join (a :: b :: rest) sep).data = a.data ++ sep.data ++ (Join (b :: rest) sep).data := by
  simp [Join, String.data_append]

theorem Join_splitChars (sep : Char) (l : List Char) :
    (Join ((splitChars sep l).map String.mk) (String.singleton sep)).data = l := by
  induction l with
  | nil => simp [splitChars, Join]
  | cons c cs ih =>
    unfold splitChars
    by_cases h : c = sep
    · subst h
      rw [if_pos rfl]
      cases hs : splitChars c cs with
      | nil => exact absurd hs (splitChars_ne_nil c cs)
      | cons piece pieces =>
        rw [hs] at ih
        simp only [List.map_cons, Join_cons_cons_data]
        simp only [List.map_cons] at ih
        rw [ih]
        rfl
    · rw [if_neg h]
      cases hs : splitChars sep cs with
      | nil => exact absurd hs (splitChars_ne_nil sep cs)
      | cons piece pieces =>
        rw [hs] at ih
        cases pieces with
        | nil =>
          simp only [List.map_cons, List.map_nil, Join] at ih ⊢
          rw [← ih]
        | cons p2 ps =>
          simp only [List.map_cons, Join_cons_cons_data] at ih ⊢
          rw [← ih]
          simp

theorem Join_Split (s : String) (sep : Char) :
    Join (Split s sep) (String.singleton sep) = s := by
  apply String.ext
  exact Join_splitChars sep s.data

theorem Repeat_data (c : Char) (k : Nat) :
    (Repeat (String.singleton c) k).data = List.replicate k c := by
  induction k with
  | zero => rfl
  | succ n ih =>
    simp only [Repeat, String.data_append, ih, List.replicate_succ]
    rfl

theorem containsChars_of_isPrefixOf (sub l : List Char) (h : sub.isPrefixOf l = true) :
    containsChars sub l = true := by
  cases l with
  | nil => simpa [containsChars] using h
  | cons c cs => simp [containsChars, h]

theorem containsChars_append (sub pre post : List Char) :
    containsChars sub (pre ++ sub ++ post) = true := by
  induction pre with
  | nil =>
    apply containsChars_of_isPrefixOf
    rw [List.nil_append, List.isPrefixOf_iff_prefix]
    exact List.prefix_append _ _
  | cons c cs ih =>
    simp only [List.cons_append, containsChars, Bool.or_eq_true]
    right
    simpa using ih

theorem mem_of_containsChars (sub l : List Char) (h : containsChars sub l = true) :
    ∀ c ∈ sub, c ∈ l := by
  induction l with
  | nil =>
    intro c hc
    simp only [containsChars, List.isPrefixOf_iff_prefix, List.prefix_nil] at h
    subst h
    exact hc
  | cons x xs ih =>
    intro c hc
    simp only [containsChars, Bool.or_eq_true, List.isPrefixOf_iff_prefix] at h
    rcases h with h | h
    · exact h.subset hc
    · exact List.mem_cons_of_mem _ (ih h c hc)

theorem String.nil_append_eq (s : String) : "" ++ s = s := by
  apply String.ext
  simp [String.data_append]

theorem Repeat_zero_append (p s : String) : Repeat p 0 ++ s = s :=
  String.nil_append_eq s

/-! ## The query parser: hostname pass -/

/-- One turn of the hostname loop, by the suffix of the chunk. -/
theorem QueryParser.replaceHostnameChunk_eq (qp : QueryParser) (chunk : String) :
    (HasSuffix chunk "name" = true →
      qp.replaceHostnameChunk chunk
        = Repeat "(" (Count chunk '(') ++ ("\"" ++ qp.hostname ++ "\"")) ∧
    (HasSuffix chunk "name" = false → qp.replaceHostnameChunk chunk = chunk) := by
  unfold QueryParser.replaceHostnameChunk
  constructor
  · intro h
    rw [if_pos h]
    by_cases h0 : Count chunk '(' = 0
    · simp only [h0, if_true, Repeat_zero_append]
      rfl
    · simp only [h0, if_false]
      rfl
  · intro h
    rw [if_neg (by simp [h])]

/-- C17: the hostname pass never returns an error; its output is the chunks
joined by single spaces, where a token that ends with `name` has become as many
`(` as it contains followed by the hostname between double quotes, and every
other token is as it was; with the hostname `h1` the query `hostname == "h1"`
becomes `"h1" == "h1"`. -/
theorem replaceHostnameWithValue_spec (qp : QueryParser) (query : String) :
    (∃ outs, qp.replaceHostnameWithValue query = (Join outs " ", none) ∧
      List.Forall₂ (fun token out =>
        (HasSuffix token "name" = true →
          out = Repeat "(" (Count token '(') ++ ("\"" ++ qp.hostname ++ "\"")) ∧
        (HasSuffix token "name" = false → out = token)) (Fields query) outs) ∧
    QueryParser.replaceHostnameWithValue { hostname := "h1", tags := [], data := [] }
      "hostname == \"h1\"" = ("\"h1\" == \"h1\"", none) := by
  refine ⟨⟨(Fields query).map qp.replaceHostnameChunk, rfl, ?_⟩, by decide⟩
  rw [List.forall₂_map_right_iff]
  exact List.forall₂_same.2 (fun token _ => qp.replaceHostnameChunk_eq token)

/-! ## The query parser: no index out of range -/

/-- A split has as many pieces as separators, and one more. -/
theorem Split_length (s : String) (sep : Char) :
    (Split s sep).length = s.data.count sep + 1 := by
  simp [Split, splitChars_length]

/-- A chunk that contains `tags.` still has a dot once its `(` are removed, so its
split has an element at index 1. -/
theorem Split_index_one (chunk : String) (h : Contains chunk "tags." = true) :
    ∃ tag, (Split (RemoveAll chunk '(') '.')[1]? = some tag := by
  have hdot : '.' ∈ chunk.data := mem_of_containsChars _ _ h '.' (by decide)
  have hmem : '.' ∈ (RemoveAll chunk '(').data := by
    simp only [RemoveAll, List.mem_filter]
    exact ⟨hdot, by decide⟩
  have hlen : 2 ≤ (Split (RemoveAll chunk '(') '.').length := by
    rw [Split_length]
    have := List.count_pos_iff.2 hmem
    omega
  exact ⟨(Split (RemoveAll chunk '(') '.')[1], List.getElem?_eq_getElem (by omega)⟩

/-- Every split has an element at index 0. -/
theorem Split_index_zero (s : String) (sep : Char) : ∃ first, (Split s sep)[0]? = some first := by
  have hlen : 1 ≤ (Split s sep).length := by
    rw [Split_length]
    omega
  exact ⟨(Split s sep)[0], List.getElem?_eq_getElem (by omega)⟩

/-- No turn of the tag loop panics. -/
theorem QueryParser.replaceTagChunk_isSome (qp : QueryParser) (chunk : String) :
    ∃ out, qp.replaceTagChunk chunk = some out := by
  unfold QueryParser.replaceTagChunk
  by_cases h : Contains chunk "tags." = true
  · obtain ⟨tag, htag⟩ := Split_index_one chunk h
    simp only [h, if_true, htag]
    split <;> exact ⟨_, rfl⟩
  · simp only [h, if_false]
    exact ⟨_, rfl⟩

/-- A loop whose turns never panic does not panic. -/
theorem mapChunks_isSome (f : String → Option String) (h : ∀ chunk, ∃ out, f chunk = some out)
    (chunks : List String) : ∃ outs, mapChunks f chunks = some outs ∧
      List.Forall₂ (fun chunk out => f chunk = some out) chunks outs := by
  induction chunks with
  | nil => exact ⟨[], rfl, List.Forall₂.nil⟩
  | cons c cs ih =>
    obtain ⟨out, ho⟩ := h c
    obtain ⟨outs, hos, hrel⟩ := ih
    refine ⟨out :: outs, ?_, List.Forall₂.cons ho hrel⟩
    simp only [mapChunks, ho, hos]

/-- No turn of the data-path loop panics. -/
theorem QueryParser.replaceDataPathChunk_isSome (lib : QueryLib) (qp : QueryParser)
    (chunk : String) : ∃ r, qp.replaceDataPathChunk lib chunk = some r := by
  unfold QueryParser.replaceDataPathChunk
  obtain ⟨first, hfirst⟩ := Split_index_zero (RemoveAll chunk '(') '.'
  split
  · simp only [hfirst]
    split
    · exact ⟨_, rfl⟩
    · split
      · exact ⟨_, rfl⟩
      · split <;> exact ⟨_, rfl⟩
  · exact ⟨_, rfl⟩

/-- The data-path loop does not panic. -/
theorem QueryParser.replaceDataPathChunks_isSome (lib : QueryLib) (qp : QueryParser)
    (chunks : List String) : ∃ r, qp.replaceDataPathChunks lib chunks = some r := by
  induction chunks with
  | nil => exact ⟨_, rfl⟩
  | cons c cs ih =>
    obtain ⟨r, hr⟩ := qp.replaceDataPathChunk_isSome lib c
    obtain ⟨rs, hrs⟩ := ih
    unfold QueryParser.replaceDataPathChunks
    rw [hr, hrs]
    cases r with
    | error e => exact ⟨_, rfl⟩
    | ok v =>
      cases rs with
      | error e => exact ⟨_, rfl⟩
      | ok vs => exact ⟨_, rfl⟩

/-- The data-path pass does not panic. -/
theorem QueryParser.replaceDataPathWithValue_isSome (lib : QueryLib) (qp : QueryParser)
    (query : String) : ∃ r, qp.replaceDataPathWithValue lib query = some r := by
  unfold QueryParser.replaceDataPathWithValue
  obtain ⟨r, hr⟩ := qp.replaceDataPathChunks_isSome lib (Fields query)
  simp only [hr]
  cases r with
  | error e => exact ⟨_, rfl⟩
  | ok v => exact ⟨_, rfl⟩

/-- C18: in the tag pass the split of a chunk that contains `tags.`, its `(`
removed, has an element at index 1, and in the data-path pass the split of a
chunk has an element at index 0; so for every query and every tag map neither
pass panics: each returns a result. -/
theorem substitution_passes_total (lib : QueryLib) (qp : QueryParser) (query : String) :
    (∀ chunk, Contains chunk "tags." = true →
      ∃ tag, (Split (RemoveAll chunk '(') '.')[1]? = some tag) ∧
    (∀ chunk, ∃ dataPath, (Split (RemoveAll chunk '(') '.')[0]? = some dataPath) ∧
    (∃ out, qp.replaceTagsWithValue query = some (out, none)) ∧
    (∃ r, qp.replaceDataPathWithValue lib query = some r) := by
  refine ⟨Split_index_one, fun chunk => Split_index_zero _ _, ?_,
    qp.replaceDataPathWithValue_isSome lib query⟩
  obtain ⟨outs, hos, _⟩ := mapChunks_isSome qp.replaceTagChunk qp.replaceTagChunk_isSome
    (Fields query)
  exact ⟨Join outs " ", by simp only [QueryParser.replaceTagsWithValue, hos]⟩

/-! ## The query parser: tag pass -/

/-- The count of `(` in a run of `(` followed by a text without `(`. -/
theorem Count_Repeat_append (k : Nat) (body : String) (h : '(' ∉ body.data) :
    Count (Repeat "(" k ++ body) '(' = k := by
  unfold Count
  have hr : (Repeat "(" k).data = List.replicate k '(' := Repeat_data '(' k
  rw [String.data_append, hr, List.count_append, List.count_replicate_self,
    List.count_eq_zero.2 h]
  rfl

/-- Removing the `(` from a run of `(` followed by a text without `(` leaves the text. -/
theorem RemoveAll_Repeat_append (k : Nat) (body : String) (h : '(' ∉ body.data) :
    RemoveAll (Repeat "(" k ++ body) '(' = body := by
  unfold RemoveAll
  have hr : (Repeat "(" k).data = List.replicate k '(' := Repeat_data '(' k
  apply String.ext
  simp only [String.data_append, hr, List.filter_append]
  have h1 : List.filter (fun x => x != '(') (List.replicate k '(') = [] := by
    rw [List.filter_eq_nil_iff]
    intro a ha
    rw [List.eq_of_mem_replicate ha]
    decide
  have h2 : List.filter (fun x => x != '(') body.data = body.data := by
    rw [List.filter_eq_self]
    intro a ha
    have : a ≠ '(' := fun e => h (e ▸ ha)
    simpa using this
  rw [h1, h2, List.nil_append]

/-- The split at the dots of a text, a dot and another text, the first without dot. -/
theorem Split_append_dot (p s : String) (h : '.' ∉ p.data) :
    Split (p ++ "." ++ s) '.' = p :: Split s '.' := by
  unfold Split
  have hd : (p ++ "." ++ s).data = p.data ++ '.' :: s.data := by
    simp [String.data_append]
  rw [hd, splitChars_append '.' p.data s.data h]
  rfl

/-- The split at the dots of a text without dot is the text. -/
theorem Split_of_not_mem (s : String) (sep : Char) (h : sep ∉ s.data) : Split s sep = [s] := by
  unfold Split
  rw [splitChars_of_not_mem sep s.data h]
  rfl

/-- One turn of the tag loop, by what the chunk contains. -/
theorem QueryParser.replaceTagChunk_eq (qp : QueryParser) (chunk : String) :
    (Contains chunk "tags." = false → qp.replaceTagChunk chunk = some chunk) ∧
    (Contains chunk "tags." = true →
      ∃ tag, (Split (RemoveAll chunk '(') '.')[1]? = some tag ∧
        qp.replaceTagChunk chunk = some (Repeat "(" (Count chunk '(') ++
          ("\"" ++ (GoMap.get qp.tags tag).getD "" ++ "\""))) := by
  unfold QueryParser.replaceTagChunk
  constructor
  · intro h
    rw [if_neg (by simp [h])]
  · intro h
    obtain ⟨tag, htag⟩ := Split_index_one chunk h
    refine ⟨tag, htag, ?_⟩
    simp only [h, if_true, htag]
    by_cases h0 : Count chunk '(' = 0
    · simp only [h0, if_true, Repeat_zero_append]
      rfl
    · simp only [h0, if_false]
      rfl

/-- C16 (as stated, refuted): the token `(tags.env)` contains `tags.env` and has
one leading `(`, the tag `env` is `prod`, and the pass writes `(""` for it. -/
theorem replaceTagsWithValue_closing_paren :
    Fields "(tags.env) == \"prod\"" = ["(tags.env)", "==", "\"prod\""] ∧
    Contains "(tags.env)" "tags.env" = true ∧
    GoMap.get Example.queryParser.tags "env" = some "prod" ∧
    Example.queryParser.replaceTagsWithValue "(tags.env) == \"prod\""
      = some ("(\"\" == \"prod\"", none) := by
  decide

/-- C16 (amended): the tag pass never panics nor returns an error; its output is
the chunks joined by single spaces, where a token without `tags.` is as it was
and a token with `tags.` has become as many `(` as it contains followed by the
double-quoted value of the tag named by the element at index 1 of the dot-split
of the token without its `(`, the empty string when the tag map has no such tag;
so a token made of `k` times `(` followed by `tags.n`, for a name `n` without
dot or `(`, becomes `k` times `(` followed by the double-quoted `tags[n]`; with
the tags `{"env":"prod"}` the query `tags.env == "prod"` becomes
`"prod" == "prod"`. -/
theorem replaceTagsWithValue_spec (qp : QueryParser) (query : String) :
    (∃ outs, qp.replaceTagsWithValue query = some (Join outs " ", none) ∧
      List.Forall₂ (fun token out =>
        (Contains token "tags." = false → out = token) ∧
        (Contains token "tags." = true →
          ∃ tag, (Split (RemoveAll token '(') '.')[1]? = some tag ∧
            out = Repeat "(" (Count token '(') ++
              ("\"" ++ (GoMap.get qp.tags tag).getD "" ++ "\""))) (Fields query) outs) ∧
    (∀ (k : Nat) (n : String), '(' ∉ n.data → '.' ∉ n.data →
      qp.replaceTagChunk (Repeat "(" k ++ ("tags." ++ n))
        = some (Repeat "(" k ++ ("\"" ++ (GoMap.get qp.tags n).getD "" ++ "\""))) ∧
    QueryParser.replaceTagsWithValue { hostname := "h1", tags := [("env", "prod")], data := [] }
      "tags.env == \"prod\"" = some ("\"prod\" == \"prod\"", none) := by
  refine ⟨?_, ?_, by decide⟩
  · obtain ⟨outs, hos, hrel⟩ := mapChunks_isSome qp.replaceTagChunk qp.replaceTagChunk_isSome
      (Fields query)
    refine ⟨outs, by simp only [QueryParser.replaceTagsWithValue, hos], ?_⟩
    refine hrel.imp ?_
    intro token out hout
    have hspec := qp.replaceTagChunk_eq token
    constructor
    · intro h
      have := hspec.1 h
      rw [hout] at this
      exact Option.some.inj this
    · intro h
      obtain ⟨tag, htag, heq⟩ := hspec.2 h
      rw [hout] at heq
      exact ⟨tag, htag, Option.some.inj heq⟩
  · intro k n hparen hdot
    have hbody : '(' ∉ ("tags." ++ n).data := by
      rw [String.data_append]
      intro hm
      rcases List.mem_append.1 hm with h1 | h1
      · exact absurd h1 (by decide)
      · exact hparen h1
    have hcontains : Contains (Repeat "(" k ++ ("tags." ++ n)) "tags." = true := by
      unfold Contains
      have := containsChars_append "tags.".data (Repeat "(" k).data n.data
      simpa [String.data_append, List.append_assoc] using this
    obtain ⟨tag, htag, heq⟩ := (qp.replaceTagChunk_eq _).2 hcontains
    rw [RemoveAll_Repeat_append k _ hbody] at htag
    have hsplit : Split ("tags." ++ n) '.' = ["tags", n] := by
      have h1 := Split_append_dot "tags" n (by decide)
      rw [Split_of_not_mem n '.' hdot] at h1
      exact h1
    rw [hsplit] at htag
    have htag2 : tag = n := by
      simpa using htag.symm
    rw [heq, Count_Repeat_append k _ hbody, htag2]

/-! ## The query parser: data-path pass -/

/-- One turn of the data-path loop on a chunk without any of the markers `/r/`,
`/w/`, `/x/`. -/
theorem QueryParser.replaceDataPathChunk_of_no_marker (lib : QueryLib) (qp : QueryParser)
    (chunk : String)
    (h : (Contains chunk "/r/" || Contains chunk "/w/" || Contains chunk "/x/") = false) :
    qp.replaceDataPathChunk lib chunk = some (Except.ok chunk) := by
  unfold QueryParser.replaceDataPathChunk
  rw [if_neg (by simp [h])]

/-- One turn of the data-path loop on a chunk with a marker that resolves. -/
theorem QueryParser.replaceDataPathChunk_of_value (lib : QueryLib) (qp : QueryParser)
    (chunk dataPath : String) (rest : List String) (v : Json) (enc : Bytes)
    (h : (Contains chunk "/r/" || Contains chunk "/w/" || Contains chunk "/x/") = true)
    (hsplit : Split (RemoveAll chunk '(') '.' = dataPath :: rest)
    (hv : qp.dataValue lib dataPath (Join rest ".") = Except.ok v)
    (henc : lib.jsonMarshal v = Except.ok enc) :
    qp.replaceDataPathChunk lib chunk
      = some (Except.ok (Repeat "(" (Count chunk '(') ++ enc)) := by
  unfold QueryParser.replaceDataPathChunk
  simp only [h, if_true, hsplit, List.getElem?_cons_zero, List.drop_succ_cons, List.drop_zero,
    hv, henc]
  by_cases h0 : Count chunk '(' = 0
  · simp only [h0, if_true, Repeat_zero_append]
  · simp only [h0, if_false]

/-- One turn of the data-path loop on a chunk with a marker that does not resolve. -/
theorem QueryParser.replaceDataPathChunk_of_error (lib : QueryLib) (qp : QueryParser)
    (chunk dataPath : String) (rest : List String) (e : String)
    (h : (Contains chunk "/r/" || Contains chunk "/w/" || Contains chunk "/x/") = true)
    (hsplit : Split (RemoveAll chunk '(') '.' = dataPath :: rest)
    (hv : qp.dataValue lib dataPath (Join rest ".") = Except.error e) :
    qp.replaceDataPathChunk lib chunk = some (Except.error e) := by
  unfold QueryParser.replaceDataPathChunk
  simp only [h, if_true, hsplit, List.getElem?_cons_zero, List.drop_succ_cons, List.drop_zero, hv]

/-- The data-path loop fails as soon as one of its chunks fails. -/
theorem QueryParser.replaceDataPathChunks_of_error (lib : QueryLib) (qp : QueryParser)
    (chunk : String) (e : String) (hc : qp.replaceDataPathChunk lib chunk = some (Except.error e))
    (chunks : List String) (hmem : chunk ∈ chunks) :
    ∃ e2, qp.replaceDataPathChunks lib chunks = some (Except.error e2) := by
  induction chunks with
  | nil => simp at hmem
  | cons c cs ih =>
    unfold QueryParser.replaceDataPathChunks
    obtain ⟨r, hr⟩ := qp.replaceDataPathChunk_isSome lib c
    rw [hr]
    cases r with
    | error e1 => exact ⟨e1, rfl⟩
    | ok v =>
      have hin : chunk ∈ cs := by
        rcases List.mem_cons.1 hmem with h1 | h1
        · subst h1
          rw [hc] at hr
          simp at hr
        · exact h1
      obtain ⟨e2, he2⟩ := ih hin
      rw [he2]
      exact ⟨e2, rfl⟩

/-- The data-path loop on chunks that all resolve. -/
theorem QueryParser.replaceDataPathChunks_of_forall (lib : QueryLib) (qp : QueryParser)
    (chunks outs : List String)
    (h : List.Forall₂ (fun chunk out => qp.replaceDataPathChunk lib chunk = some (Except.ok out))
      chunks outs) :
    qp.replaceDataPathChunks lib chunks = some (Except.ok outs) := by
  induction h with
  | nil => rfl
  | cons h1 _ ih =>
    unfold QueryParser.replaceDataPathChunks
    rw [h1, ih]

/-- The three ways in which a data path does not resolve make `dataValue` fail. -/
theorem QueryParser.dataValue_error (lib : QueryLib) (qp : QueryParser)
    (dataPath jsonSelector : String)
    (h : TSafeMapBytes.Get qp.data dataPath = none ∨
      (∃ e, jsonUnmarshalMap lib (TSafeMapBytes.Get qp.data dataPath) = Except.error e) ∨
      (∃ m e, jsonUnmarshalMap lib (TSafeMapBytes.Get qp.data dataPath) = Except.ok m ∧
        lib.jsonq m ("Data" :: Split jsonSelector '.') = Except.error e)) :
    ∃ e, qp.dataValue lib dataPath jsonSelector = Except.error e := by
  unfold QueryParser.dataValue
  rcases h with h | ⟨e, h⟩ | ⟨m, e, h1, h2⟩
  · simp only [h]
    exact ⟨_, rfl⟩
  · simp only [h]
    exact ⟨_, rfl⟩
  · simp only [h1]
    exact ⟨e, h2⟩

/-- The data-path loop reads neither the tags, nor the hostname, nor the evaluator. -/
theorem QueryParser.replaceDataPathChunks_congr (lib : QueryLib) (qp : QueryParser)
    (tags : List (String × String)) (hostname : String)
    (otto : String → Except String (Bool × GoError)) (chunks : List String) :
    QueryParser.replaceDataPathChunks { lib with ottoRun := otto }
      { qp with tags := tags, hostname := hostname } chunks
      = qp.replaceDataPathChunks lib chunks := by
  induction chunks with
  | nil => rfl
  | cons c cs ih =>
    have hc : QueryParser.replaceDataPathChunk { lib with ottoRun := otto }
        { qp with tags := tags, hostname := hostname } c = qp.replaceDataPathChunk lib c := rfl
    unfold QueryParser.replaceDataPathChunks
    rw [hc, ih]

/-- C14: when a token of the query holds a marker `/r/`, `/w/` or `/x/` and its
data path does not resolve (no cached bytes at the data path, cached bytes that
do not decode into a JSON object, or no value at `Data.<selector>`), the
data-path pass returns an error and `Parse` returns `false` with that error,
whatever the tags, the hostname and the expression evaluator are: none of the
later passes contributes. -/
theorem parse_unresolved (lib : QueryLib) (qp : QueryParser) (query token dataPath : String)
    (rest : List String)
    (hmem : token ∈ Fields query)
    (hmark : (Contains token "/r/" || Contains token "/w/" || Contains token "/x/") = true)
    (hsplit : Split (RemoveAll token '(') '.' = dataPath :: rest)
    (hfail : TSafeMapBytes.Get qp.data dataPath = none ∨
      (∃ e, jsonUnmarshalMap lib (TSafeMapBytes.Get qp.data dataPath) = Except.error e) ∨
      (∃ m e, jsonUnmarshalMap lib (TSafeMapBytes.Get qp.data dataPath) = Except.ok m ∧
        lib.jsonq m ("Data" :: Split (Join rest ".") '.') = Except.error e)) :
    ∃ e, qp.replaceDataPathWithValue lib query = some ("", some e) ∧
      qp.Parse lib query = some (false, some e) ∧
      ∀ (tags : List (String × String)) (hostname : String)
        (otto : String → Except String (Bool × GoError)),
        QueryParser.Parse { lib with ottoRun := otto }
          { qp with tags := tags, hostname := hostname } query = some (false, some e) := by
  obtain ⟨e0, he0⟩ := qp.dataValue_error lib dataPath (Join rest ".") hfail
  have hchunk := qp.replaceDataPathChunk_of_error lib token dataPath rest e0 hmark hsplit he0
  obtain ⟨e, he⟩ := qp.replaceDataPathChunks_of_error lib token e0 hchunk (Fields query) hmem
  have hpass : qp.replaceDataPathWithValue lib query = some ("", some e) := by
    simp only [QueryParser.replaceDataPathWithValue, he]
  refine ⟨e, hpass, ?_, ?_⟩
  · simp only [QueryParser.Parse, hpass]
  · intro tags hostname otto
    have hsame : QueryParser.replaceDataPathWithValue { lib with ottoRun := otto }
        { qp with tags := tags, hostname := hostname } query
        = qp.replaceDataPathWithValue lib query := by
      unfold QueryParser.replaceDataPathWithValue
      simp only [QueryParser.replaceDataPathChunks_congr lib qp tags hostname otto (Fields query)]
    simp only [QueryParser.Parse, hsame, hpass]

/-- C14, at the query `/r/missing/path.Load > 0` over the example cache, which has
no entry at `/r/missing/path`. -/
theorem parse_unresolved_witness :
    ∃ e, Example.queryParser.replaceDataPathWithValue Example.queryLib
        "/r/missing/path.Load > 0" = some ("", some e) ∧
      Example.queryParser.Parse Example.queryLib "/r/missing/path.Load > 0"
        = some (false, some e) ∧
      ∀ (tags : List (String × String)) (hostname : String)
        (otto : String → Except String (Bool × GoError)),
        QueryParser.Parse { Example.queryLib with ottoRun := otto }
          { Example.queryParser with tags := tags, hostname := hostname }
          "/r/missing/path.Load > 0" = some (false, some e) :=
  parse_unresolved Example.queryLib Example.queryParser "/r/missing/path.Load > 0"
    "/r/missing/path.Load" "/r/missing/path" ["Load"] (by decide) (by decide) (by decide)
    (Or.inl (by decide))

/-- C15 (as stated, refuted): the token `/r/cpu/load.Load(1m)` has no leading `(`,
the text before its first dot is `/r/cpu/load`, the text after it is `Load(1m)`,
and the envelope cached at `/r/cpu/load` has the value 2.5 at `Data.Load(1m)`;
the pass does not write `2.5` for the token: it looks for `Load1m)` and returns
an error. -/
theorem replaceDataPathWithValue_inner_paren :
    Fields "/r/cpu/load.Load(1m) > 2" = ["/r/cpu/load.Load(1m)", ">", "2"] ∧
    Contains "/r/cpu/load.Load(1m)" "/r/" = true ∧
    (Example.queryParserParen.dataValue Example.queryLib "/r/cpu/load" "Load(1m)").toOption.map
      Example.render = some "2.5" ∧
    Example.queryParserParen.replaceDataPathWithValue Example.queryLib "/r/cpu/load.Load(1m) > 2"
      = some ("", some "Object does not contain field Load1m)") := by
  decide

/-- C15 (amended): in the data-path pass a token without marker is left as it
is; a token with a marker `/r/`, `/w/` or `/x/` has all its `(` removed, is split
at the dots into the data path (the first piece) and the selector (the other
pieces joined by dots), and when the envelope cached at the data path has a
value at `Data.<selector>` the token becomes as many `(` as it contained
followed by the JSON encoding of the value; so a token made of `k` times `(`
followed by `dataPath.selector`, without further `(` and without dot in
`dataPath`, becomes `k` times `(` followed by the encoding of the value at
`Data.<selector>`; when every token with a marker resolves the pass returns the
tokens joined by single spaces with a `nil` error; with `{"Data":{"Load":2.5}}`
cached at `/r/cpu/load` the query `/r/cpu/load.Load > 2 && tags.env == "prod"`
becomes `2.5 > 2 && tags.env == "prod"`. -/
theorem replaceDataPathWithValue_spec (lib : QueryLib) (qp : QueryParser) :
    (∀ token, (Contains token "/r/" || Contains token "/w/" || Contains token "/x/") = false →
      qp.replaceDataPathChunk lib token = some (Except.ok token)) ∧
    (∀ token dataPath rest v enc,
      (Contains token "/r/" || Contains token "/w/" || Contains token "/x/") = true →
      Split (RemoveAll token '(') '.' = dataPath :: rest →
      qp.dataValue lib dataPath (Join rest ".") = Except.ok v →
      lib.jsonMarshal v = Except.ok enc →
      qp.replaceDataPathChunk lib token
        = some (Except.ok (Repeat "(" (Count token '(') ++ enc))) ∧
    (∀ (k : Nat) (dataPath selector : String) (v : Json) (enc : Bytes),
      '(' ∉ dataPath.data → '(' ∉ selector.data → '.' ∉ dataPath.data →
      (Contains (Repeat "(" k ++ (dataPath ++ "." ++ selector)) "/r/" ||
        Contains (Repeat "(" k ++ (dataPath ++ "." ++ selector)) "/w/" ||
        Contains (Repeat "(" k ++ (dataPath ++ "." ++ selector)) "/x/") = true →
      qp.dataValue lib dataPath selector = Except.ok v →
      lib.jsonMarshal v = Except.ok enc →
      qp.replaceDataPathChunk lib (Repeat "(" k ++ (dataPath ++ "." ++ selector))
        = some (Except.ok (Repeat "(" k ++ enc))) ∧
    (∀ query outs,
      List.Forall₂ (fun token out => qp.replaceDataPathChunk lib token = some (Except.ok out))
        (Fields query) outs →
      qp.replaceDataPathWithValue lib query = some (Join outs " ", none)) ∧
    Example.queryParser.replaceDataPathWithValue Example.queryLib
      "/r/cpu/load.Load > 2 && tags.env == \"prod\""
      = some ("2.5 > 2 && tags.env == \"prod\"", none) := by
  refine ⟨qp.replaceDataPathChunk_of_no_marker lib, ?_, ?_, ?_, by decide⟩
  · intro token dataPath rest v enc hmark hsplit hv henc
    exact qp.replaceDataPathChunk_of_value lib token dataPath rest v enc hmark hsplit hv henc
  · intro k dataPath selector v enc hp1 hp2 hdot hmark hv henc
    have hbody : '(' ∉ (dataPath ++ "." ++ selector).data := by
      simp only [String.data_append, List.mem_append, not_or]
      exact ⟨⟨hp1, by decide⟩, hp2⟩
    have hsplit : Split (RemoveAll (Repeat "(" k ++ (dataPath ++ "." ++ selector)) '(') '.'
        = dataPath :: Split selector '.' := by
      rw [RemoveAll_Repeat_append k _ hbody, Split_append_dot dataPath selector hdot]
    have hjoin : Join (Split selector '.') "." = selector := Join_Split selector '.'
    have h := qp.replaceDataPathChunk_of_value lib _ dataPath (Split selector '.') v enc hmark
      hsplit (by rw [hjoin]; exact hv) henc
    rw [h, Count_Repeat_append k _ hbody]
  · intro query outs h
    have hc := qp.replaceDataPathChunks_of_forall lib (Fields query) outs h
    simp only [QueryParser.replaceDataPathWithValue, hc]

end Resourced
